import Mathlib

set_option maxRecDepth 8000

/-
  Verification development for the rs-lox tree-walking interpreter.

  The Rust sources are shallowly embedded: each Rust function is translated
  to an executable Lean definition operating on explicit state.  Reference
  counting (Rc/RefCell) is modelled either functionally (for code that only
  reads or rebuilds a structure) or by a store of frames addressed by
  allocation index (for the interpreter, where closures share mutable
  environments).  Machine floats (f64) are modelled exactly on the rational
  subset, extended with infinities and NaN; IEEE rounding is not modelled,
  which is irrelevant to every property below (they concern error paths,
  not rounded values).
-/

/-! ### Association lists

`HashMap<String, V>` is modelled as an association list whose `insert`
replaces an existing binding in place (same observable lookup/contains
behaviour as the hash map). -/

def alistLookup {α : Type} : List (String × α) → String → Option α
  | [], _ => none
  | (k, v) :: rest, key => if k = key then some v else alistLookup rest key

def alistInsert {α : Type} : List (String × α) → String → α → List (String × α)
  | [], key, val => [(key, val)]
  | (k, v) :: rest, key, val =>
    if k = key then (k, val) :: rest else (k, v) :: alistInsert rest key val

def alistContains {α : Type} (l : List (String × α)) (key : String) : Bool :=
  (alistLookup l key).isSome

def alistKeys {α : Type} (l : List (String × α)) : List String :=
  l.map Prod.fst

/-! ### f64 model

Rust `f64` values, exact on rationals.  Division by zero follows IEEE-754:
`1.0/0.0 = +inf`, `-1.0/0.0 = -inf`, `0.0/0.0 = NaN`.  Signed zeros and
rounding are not modelled (no claim depends on them). -/

inductive F64
  | val (q : ℚ)
  | inf
  | negInf
  | nan
deriving DecidableEq

def F64.neg : F64 → F64
  | .val q => .val (-q)
  | .inf => .negInf
  | .negInf => .inf
  | .nan => .nan

def F64.add : F64 → F64 → F64
  | .val a, .val b => .val (a + b)
  | .nan, _ => .nan
  | _, .nan => .nan
  | .inf, .negInf => .nan
  | .negInf, .inf => .nan
  | .inf, _ => .inf
  | _, .inf => .inf
  | .negInf, _ => .negInf
  | _, .negInf => .negInf

def F64.sub (a b : F64) : F64 := a.add b.neg

def F64.mul : F64 → F64 → F64
  | .val a, .val b => .val (a * b)
  | .nan, _ => .nan
  | _, .nan => .nan
  | .inf, .val b => if b = 0 then .nan else if 0 < b then .inf else .negInf
  | .val a, .inf => if a = 0 then .nan else if 0 < a then .inf else .negInf
  | .negInf, .val b => if b = 0 then .nan else if 0 < b then .negInf else .inf
  | .val a, .negInf => if a = 0 then .nan else if 0 < a then .negInf else .inf
  | .inf, .inf => .inf
  | .negInf, .negInf => .inf
  | .inf, .negInf => .negInf
  | .negInf, .inf => .negInf

def F64.div : F64 → F64 → F64
  | .val a, .val b =>
    if b = 0 then (if a = 0 then .nan else if 0 < a then .inf else .negInf)
    else .val (a / b)
  | .nan, _ => .nan
  | _, .nan => .nan
  | .inf, .val b => if 0 ≤ b then .inf else .negInf
  | .negInf, .val b => if 0 ≤ b then .negInf else .inf
  | .val _, .inf => .val 0
  | .val _, .negInf => .val 0
  | .inf, .inf => .nan
  | .inf, .negInf => .nan
  | .negInf, .inf => .nan
  | .negInf, .negInf => .nan

/-- IEEE equality: `NaN` is not equal to anything, including itself. -/
def F64.beq : F64 → F64 → Bool
  | .val a, .val b => decide (a = b)
  | .inf, .inf => true
  | .negInf, .negInf => true
  | _, _ => false

def F64.lt : F64 → F64 → Bool
  | .val a, .val b => decide (a < b)
  | .nan, _ => false
  | _, .nan => false
  | .negInf, .negInf => false
  | .negInf, _ => true
  | _, .negInf => false
  | .inf, .inf => false
  | _, .inf => true
  | .inf, _ => false

def F64.le (a b : F64) : Bool := a.lt b || a.beq b

def F64.gt (a b : F64) : Bool := b.lt a

def F64.ge (a b : F64) : Bool := b.le a

/-! ### TokenType (token_type.rs)

The file `token_type.rs` is not in the snapshot; the variant set is
reconstructed from its uses across scanner.rs, parser.rs, resolver.rs and
interpreter.rs.  In this repository `Equal` is the lexeme `==` and `Assign`
is the lexeme `=`. -/

inductive TokenType
  | LeftParen | RightParen | LeftBrace | RightBrace
  | Comma | Dot | Minus | Plus | SemiColon | Star | Slash
  | Bang | BangEqual | Equal | Assign
  | Greater | GreaterEqual | Less | LessEqual
  | String | Number | Identifier
  | And | Class | Else | False | For | Fun | If | Nil | Or | Print
  | Return | Super | This | True | Var | While | Break | Eof
deriving DecidableEq

/-! ### The object model, tokens and the AST

The snapshot mixes commits: `object.rs` has five variants while
`interpreter.rs` uses `Object::Func` and `lox_class.rs`/`lox_instance.rs`
use `Object::Func`/`Object::Instance`.  The union of the variants is used
here; the catch-all arms of the embedded functions treat the extra variants
exactly as the Rust catch-alls would.  `Rc<T>` children are embedded as
plain values; an `Rc<RefCell<Environment>>` closure cell is embedded as an
index (`closure : Nat`) into the interpreter's frame store defined below.
`expr.rs` is generated code absent from the snapshot; its shapes are
reconstructed from the constructions in parser.rs and resolver.rs. -/

mutual
inductive Object
  | Num (n : F64)
  | Str (s : String)
  | Bool (b : Bool)
  | Nil
  | ArithmeticError
  | Func (c : Callable)
  | Instance (i : LoxInstance)

inductive Callable
  | LoxFn (f : LoxFunction)
  | NativeClock

inductive LoxFunction
  | mk (name : Token) (params : List Token) (body : List Stmt)
      (closure : Nat) (isInitialized : Bool)

inductive LoxClass
  | mk (name : String) (methods : List (String × Object))
      (superclass : Option LoxClass)

inductive LoxInstance
  | mk (klass : LoxClass) (fields : List (String × Object))

inductive Token
  | mk (ttype : TokenType) (lexeme : String) (literal : Option Object) (line : Nat)

inductive Expr
  | Assign (name : Token) (value : Expr)
  | Binary (left : Expr) (operator : Token) (right : Expr)
  | Call (callee : Expr) (paren : Token) (arguments : List Expr)
  | Get (object : Expr) (name : Token)
  | Grouping (expression : Expr)
  | Literal (value : Option Object)
  | Logical (left : Expr) (operator : Token) (right : Expr)
  | Set (object : Expr) (name : Token) (value : Expr)
  | Super (keyword : Token) (method : Token)
  | This (keyword : Token)
  | Unary (operator : Token) (right : Expr)
  | Variable (name : Token)

inductive Stmt
  | Block (statements : List Stmt)
  | Class (name : Token) (superclass : Option Expr) (methods : List Stmt)
  | Break (token : Token)
  | Expression (expression : Expr)
  | Function (name : Token) (params : List Token) (body : List Stmt)
  | If (condition : Expr) (thenBranch : Stmt) (elseBranch : Option Stmt)
  | Print (expression : Expr)
  | Return (keyword : Token) (value : Option Expr)
  | Var (name : Token) (initializer : Option Expr)
  | While (condition : Expr) (body : Stmt)
end

/-! ### error.rs -/

inductive LoxResult
  | ParseError (token : Token) (message : String)
  | RuntimeError (token : Token) (message : String)
  | Error (line : Nat) (message : String)
  | SystemError (message : String)
  | ReturnValue (value : Object)
  | Break

def LoxResult.error (line : Nat) (message : String) : LoxResult :=
  .Error line message

def LoxResult.parseError (token : Token) (message : String) : LoxResult :=
  .ParseError token message

def LoxResult.runtimeError (token : Token) (message : String) : LoxResult :=
  .RuntimeError token message

def LoxResult.systemError (message : String) : LoxResult :=
  .SystemError message

def LoxResult.returnValue (value : Object) : LoxResult :=
  .ReturnValue value

/-! ### token.rs -/

def Token.ttype : Token → TokenType
  | .mk t _ _ _ => t

def Token.lexeme : Token → String
  | .mk _ l _ _ => l

def Token.literal : Token → Option Object
  | .mk _ _ lit _ => lit

def Token.line : Token → Nat
  | .mk _ _ _ n => n

def Token.is (t : Token) (ttype : TokenType) : Bool :=
  decide (t.ttype = ttype)

def Token.tokenType (t : Token) : TokenType := t.ttype

def Token.asString (t : Token) : String := t.lexeme

/-- Rust `Token::dup` clones all fields; on embedded values it is the identity. -/
def Token.dup (t : Token) : Token := t

def Token.eof (line : Nat) : Token := .mk .Eof "" none line

/-! ### object.rs operator impls -/

/-- The `impl PartialEq for Object` (manual impl; note the catch-all makes
`ArithmeticError == ArithmeticError` false, and `Func` values, compared by
pointer in callable.rs, fall to the catch-all on the paths relevant here). -/
def objectEq : Object → Object → Bool
  | .Num a, .Num b => a.beq b
  | .Str a, .Str b => decide (a = b)
  | .Bool a, .Bool b => decide (a = b)
  | .Nil, .Nil => true
  | _, _ => false

/-- The `impl Sub for Object`. -/
def objectSub : Object → Object → Object
  | .Num l, .Num r => .Num (l.sub r)
  | _, _ => .ArithmeticError

/-- The `impl Div for Object`: zero divisor yields the `ArithmeticError` sentinel. -/
def objectDiv : Object → Object → Object
  | .Num l, .Num r => if r.beq (.val 0) then .ArithmeticError else .Num (l.div r)
  | _, _ => .ArithmeticError

/-- The `impl Mul for Object`. -/
def objectMul : Object → Object → Object
  | .Num l, .Num r => .Num (l.mul r)
  | _, _ => .ArithmeticError

/-- The `impl Add for Object`. -/
def objectAdd : Object → Object → Object
  | .Num l, .Num r => .Num (l.add r)
  | .Str l, .Str r => .Str (l ++ r)
  | _, _ => .ArithmeticError

/-! ### environment.rs

`Environment` is a chain of frames: a variable map plus an optional
enclosing environment.  The Rust code reads and mutates the chain through
`Rc<RefCell<_>>`; `assign` is embedded functionally, returning the rebuilt
chain (the claim it settles concerns which frame is updated, which the
functional reading captures exactly).  The interpreter further below uses a
store-of-frames embedding of the same type to model sharing. -/

inductive Environment
  | mk (vars : List (String × Object)) (enclosing : Option Environment)

/-- The `variables` map of the frame (`variables` is reserved in Lean). -/
def Environment.vars : Environment → List (String × Object)
  | .mk vars _ => vars

def Environment.enclosing : Environment → Option Environment
  | .mk _ enc => enc

def Environment.new : Environment := .mk [] none

def Environment.newWithEnclosing (enclosing : Environment) : Environment :=
  .mk [] (some enclosing)

def Environment.define (e : Environment) (name : String) (value : Object) : Environment :=
  .mk (alistInsert e.vars name value) e.enclosing

def undefinedVariableMsg (name : Token) : String :=
  "Undefined variable \x27" ++ name.asString ++ "\x27."

def Environment.get : Environment → Token → Except LoxResult Object
  | .mk vars enc, name =>
    match alistLookup vars name.asString with
    | some object => .ok object
    | none =>
      match enc with
      | some enclosing => enclosing.get name
      | none => .error (LoxResult.runtimeError name.dup (undefinedVariableMsg name))

/-- Rust `Environment::assign`: update in place if this frame defines the name
(`Entry::Occupied`), otherwise recurse into the enclosing frame, otherwise
report an undefined variable. -/
def Environment.assign : Environment → Token → Object → Except LoxResult Environment
  | .mk vars enc, name, value =>
    if alistContains vars name.asString then
      .ok (.mk (alistInsert vars name.asString value) enc)
    else
      match enc with
      | some enclosing =>
        match enclosing.assign name value with
        | .ok enclosing2 => .ok (.mk vars (some enclosing2))
        | .error e => .error e
      | none => .error (LoxResult.runtimeError name.dup (undefinedVariableMsg name))

/-- The frames of a chain, innermost first. -/
def Environment.frames : Environment → List (List (String × Object))
  | .mk vars none => [vars]
  | .mk vars (some enclosing) => vars :: enclosing.frames

/-- The defined names of each frame, innermost first. -/
def Environment.domains (e : Environment) : List (List String) :=
  e.frames.map alistKeys

/-- Distance (in frames, innermost = 0) to the nearest frame defining `name`. -/
def Environment.depthOf : Environment → String → Option Nat
  | .mk vars enc, name =>
    if alistContains vars name then some 0
    else
      match enc with
      | some enclosing => (enclosing.depthOf name).map (· + 1)
      | none => none

/-! ### scanner.rs

The scanner walks a character vector with `start`/`current` cursors.  The
recursive loops are driven by a fuel parameter (always called with ample
fuel; running out yields an unterminated-comment style error that no claim
exercises).  `print_comment` writes the comment text to stdout in Rust; the
model drops that output (no claim concerns it). -/

structure ScannerState where
  source : List Char
  tokens : List Token
  start : Nat
  current : Nat
  line : Nat

/-- The `LoxError` type is the error type of the scanner-era `error.rs` (absent from
the snapshot); reconstructed from its uses `LoxError::error(line, msg)`. -/
structure LoxError where
  line : Nat
  message : String
deriving DecidableEq

def LoxError.error (line : Nat) (message : String) : LoxError :=
  ⟨line, message⟩

def Scanner.isAtEnd (s : ScannerState) : Bool :=
  decide (s.current ≥ s.source.length)

/-- Scanner `advance` reads the current character and moves the cursor.  The Rust
code unwraps the lookup; callers guard with `is_at_end`, so the default
character is unreachable on those paths. -/
def Scanner.advance (s : ScannerState) : Char × ScannerState :=
  (s.source.getD s.current ' ', { s with current := s.current + 1 })

/-- Scanner `is_match` compares the character at `current` with `expected`.  Note
that, unlike the book scanner, this function does NOT advance the cursor. -/
def Scanner.isMatch (s : ScannerState) (expected : Char) : Bool :=
  match s.source.get? s.current with
  | some ch => decide (ch = expected)
  | none => false

def Scanner.peek (s : ScannerState) : Option Char :=
  s.source.get? s.current

def Scanner.peekNext (s : ScannerState) : Option Char :=
  s.source.get? (s.current + 1)

def Scanner.lexemeOf (s : ScannerState) : String :=
  String.mk ((s.source.drop s.start).take (s.current - s.start))

def Scanner.addTokenObject (s : ScannerState) (ttype : TokenType)
    (literal : Option Object) : ScannerState :=
  { s with tokens := s.tokens ++ [Token.mk ttype (Scanner.lexemeOf s) literal s.line] }

def Scanner.addToken (s : ScannerState) (ttype : TokenType) : ScannerState :=
  Scanner.addTokenObject s ttype none

def Scanner.keywords : String → Option TokenType
  | "and" => some .And
  | "class" => some .Class
  | "else" => some .Else
  | "false" => some .False
  | "for" => some .For
  | "fun" => some .Fun
  | "if" => some .If
  | "nil" => some .Nil
  | "or" => some .Or
  | "print" => some .Print
  | "return" => some .Return
  | "super" => some .Super
  | "this" => some .This
  | "true" => some .True
  | "var" => some .Var
  | "while" => some .While
  | _ => none

def Scanner.isDigit : Option Char → Bool
  | some ch => ch.isDigit
  | none => false

def Scanner.isAlphaNumeric : Option Char → Bool
  | some ch => ch.isAlphanum
  | none => false

/-- The `//` comment loop: consume to end of line. -/
def Scanner.lineCommentLoop : Nat → ScannerState → ScannerState
  | 0, s => s
  | fuel+1, s =>
    match Scanner.peek s with
    | some ch =>
      if ch ≠ '\n' then Scanner.lineCommentLoop fuel (Scanner.advance s).2
      else s
    | none => s

/-- Scanner `scan_comment` for `/* ... */` block comments (non-nesting). -/
def Scanner.scanComment : Nat → ScannerState → Except LoxError ScannerState
  | 0, s => .error (LoxError.error s.line "UnClosed comment.")
  | fuel+1, s =>
    if ¬ (Scanner.isMatch s '*') ∧ ¬ (Scanner.isAtEnd s) then
      let s1 := (Scanner.advance s).2
      let s2 := if Scanner.peek s1 = some '\n' then { s1 with line := s1.line + 1 } else s1
      Scanner.scanComment fuel s2
    else
      if ¬ (Scanner.isAtEnd s) then
        if Scanner.isMatch s '*' ∧ Scanner.peekNext s = some '/' then
          .ok (Scanner.advance (Scanner.advance s).2).2
        else
          Scanner.scanComment fuel (Scanner.advance s).2
      else .error (LoxError.error s.line "UnClosed comment.")

def Scanner.identifierLoop : Nat → ScannerState → ScannerState
  | 0, s => s
  | fuel+1, s =>
    if Scanner.isAlphaNumeric (Scanner.peek s) then
      Scanner.identifierLoop fuel (Scanner.advance s).2
    else s

def Scanner.identifier (fuel : Nat) (s : ScannerState) : ScannerState :=
  let s1 := Scanner.identifierLoop fuel s
  let val := Scanner.lexemeOf s1
  match Scanner.keywords val with
  | some ttype => Scanner.addToken s1 ttype
  | none => Scanner.addToken s1 .Identifier

def Scanner.digitLoop : Nat → ScannerState → ScannerState
  | 0, s => s
  | fuel+1, s =>
    if Scanner.isDigit (Scanner.peek s) then
      Scanner.digitLoop fuel (Scanner.advance s).2
    else s

/-- Models `val.parse::<f64>()` on the scanned numeric lexeme: exact rational value
of `digits[.digits]` (f64 rounding not modelled; no claim reads the value). -/
def parseNumber (chars : List Char) : ℚ :=
  let intPart := chars.takeWhile (· ≠ '.')
  let fracPart := (chars.dropWhile (· ≠ '.')).drop 1
  let intVal : ℚ := intPart.foldl (fun acc c => acc * 10 + (c.toNat - '0'.toNat)) 0
  let fracVal : ℚ := fracPart.foldr (fun c acc => (acc + (c.toNat - '0'.toNat)) / 10) 0
  intVal + fracVal

def Scanner.number (fuel : Nat) (s : ScannerState) : ScannerState :=
  let s1 := Scanner.digitLoop fuel s
  let s2 :=
    if Scanner.peek s1 = some '.' ∧ Scanner.isDigit (Scanner.peekNext s1) then
      Scanner.digitLoop fuel (Scanner.advance s1).2
    else s1
  let num := parseNumber ((s2.source.drop s2.start).take (s2.current - s2.start))
  Scanner.addTokenObject s2 .Number (some (Object.Num (F64.val num)))

def Scanner.stringLoop : Nat → ScannerState → ScannerState
  | 0, s => s
  | fuel+1, s =>
    match Scanner.peek s with
    | some ch =>
      if ch = '"' then s
      else
        let s1 := if ch = '\n' then { s with line := s.line + 1 } else s
        Scanner.stringLoop fuel (Scanner.advance s1).2
    | none => s

def Scanner.string (fuel : Nat) (s : ScannerState) : Except LoxError ScannerState :=
  let s1 := Scanner.stringLoop fuel s
  if Scanner.isAtEnd s1 then .error (LoxError.error s1.line "Unterminated string.")
  else
    let s2 := (Scanner.advance s1).2
    let val := String.mk ((s2.source.drop (s2.start + 1)).take (s2.current - 1 - (s2.start + 1)))
    .ok (Scanner.addTokenObject s2 .String (some (Object.Str val)))

def Scanner.scanToken (fuel : Nat) (s : ScannerState) : Except LoxError ScannerState :=
  let (c, s) := Scanner.advance s
  match c with
  | '(' => .ok (Scanner.addToken s .LeftParen)
  | ')' => .ok (Scanner.addToken s .RightParen)
  | '\x7b' => .ok (Scanner.addToken s .LeftBrace)
  | '\x7d' => .ok (Scanner.addToken s .RightBrace)
  | ',' => .ok (Scanner.addToken s .Comma)
  | '.' => .ok (Scanner.addToken s .Dot)
  | '-' => .ok (Scanner.addToken s .Minus)
  | '+' => .ok (Scanner.addToken s .Plus)
  | ';' => .ok (Scanner.addToken s .SemiColon)
  | '*' => .ok (Scanner.addToken s .Star)
  | '!' =>
    let tok := if Scanner.isMatch s '=' then TokenType.BangEqual else TokenType.Bang
    .ok (Scanner.addToken s tok)
  | '=' =>
    let tok := if Scanner.isMatch s '=' then TokenType.Equal else TokenType.Assign
    .ok (Scanner.addToken s tok)
  | '>' =>
    let tok := if Scanner.isMatch s '=' then TokenType.GreaterEqual else TokenType.Greater
    .ok (Scanner.addToken s tok)
  | '<' =>
    let tok := if Scanner.isMatch s '=' then TokenType.LessEqual else TokenType.Less
    .ok (Scanner.addToken s tok)
  | '/' =>
    if Scanner.isMatch s '/' then .ok (Scanner.lineCommentLoop fuel s)
    else if Scanner.isMatch s '*' then Scanner.scanComment fuel (Scanner.advance s).2
    else .ok (Scanner.addToken s .Slash)
  | ' ' => .ok s
  | '\r' => .ok s
  | '\t' => .ok s
  | '\n' => .ok { s with line := s.line + 1 }
  | '"' => Scanner.string fuel s
  | _ =>
    if c.isDigit then .ok (Scanner.number fuel s)
    else if c.isAlphanum ∨ c = '_' then .ok (Scanner.identifier fuel s)
    else .error (LoxError.error s.line "Unknown token type")

def Scanner.scanTokensLoop : Nat → ScannerState → Option LoxError → ScannerState × Option LoxError
  | 0, s, hadError => (s, hadError)
  | fuel+1, s, hadError =>
    if Scanner.isAtEnd s then (s, hadError)
    else
      let s0 := { s with start := s.current }
      match Scanner.scanToken fuel s0 with
      | .ok s1 => Scanner.scanTokensLoop fuel s1 hadError
      | .error e => Scanner.scanTokensLoop fuel { s0 with current := s0.current + 1 } (some e)

def Scanner.scanTokens (fuel : Nat) (s : ScannerState) : List Token × Option LoxError :=
  let (s1, hadError) := Scanner.scanTokensLoop fuel s none
  ((s1.tokens ++ [Token.eof s1.line]), hadError)

def scannerNew (source : String) : ScannerState :=
  ⟨source.data, [], 0, 0, 1⟩

def runScan (source : String) : List Token × Option LoxError :=
  Scanner.scanTokens (2 * source.length + 10) (scannerNew source)

/-! ### parser.rs

State is the token slice plus the `current` cursor and the `has_error`
flag.  `parse` additionally reports errors (`e.report()`); the reported
errors are collected in `reported`.  All loops and the recursive descent
are driven by a fuel parameter (always called with ample fuel).  The Rust
`peek`/`previous` unwrap their lookups; the model supplies an EOF default,
unreachable for EOF-terminated inputs. -/

structure ParserState where
  tokens : List Token
  current : Nat
  hasError : Bool
  reported : List LoxResult

def parserOutOfFuel : LoxResult := LoxResult.systemError "model: parser out of fuel"

def Parser.peek (ps : ParserState) : Token :=
  ps.tokens.getD ps.current (Token.eof 0)

def Parser.previous (ps : ParserState) : Token :=
  ps.tokens.getD (ps.current - 1) (Token.eof 0)

def Parser.isAtEnd (ps : ParserState) : Bool :=
  (Parser.peek ps).is .Eof

def Parser.check (ps : ParserState) (ttype : TokenType) : Bool :=
  if Parser.isAtEnd ps then false else (Parser.peek ps).is ttype

def Parser.advance (ps : ParserState) : Token × ParserState :=
  let ps2 := if ¬ Parser.isAtEnd ps then { ps with current := ps.current + 1 } else ps
  (Parser.previous ps2, ps2)

def Parser.isMatch (ps : ParserState) (types : List TokenType) : Bool × ParserState :=
  match types with
  | [] => (false, ps)
  | t :: rest =>
    if Parser.check ps t then (true, (Parser.advance ps).2)
    else Parser.isMatch ps rest

/-- Rust `Parser::error` records the error in the flag and hands the
`LoxResult` back to the caller (it does not report it). -/
def Parser.error (ps : ParserState) (token : Token) (message : String) :
    LoxResult × ParserState :=
  (LoxResult.parseError token message, { ps with hasError := true })

def Parser.consume (ps : ParserState) (ttype : TokenType) (message : String) :
    Except LoxResult Token × ParserState :=
  if Parser.check ps ttype then
    let (t, ps2) := Parser.advance ps
    (.ok t.dup, ps2)
  else
    let (e, ps2) := Parser.error ps (Parser.peek ps).dup message
    (.error e, ps2)

def Parser.synchronizeLoop : Nat → ParserState → ParserState
  | 0, ps => ps
  | fuel+1, ps =>
    if ¬ Parser.isAtEnd ps then
      if (Parser.previous ps).is .SemiColon then ps
      else
        match (Parser.peek ps).ttype with
        | .Class | .Fun | .Var | .For | .If | .While | .Print | .Return => ps
        | _ => Parser.synchronizeLoop fuel (Parser.advance ps).2
    else ps

def Parser.synchronize (fuel : Nat) (ps : ParserState) : ParserState :=
  Parser.synchronizeLoop fuel (Parser.advance ps).2

def Parser.success (ps : ParserState) : Bool :=
  ¬ ps.hasError

mutual

def Parser.declaration : Nat → ParserState → Except LoxResult Stmt × ParserState
  | 0, ps => (.error parserOutOfFuel, ps)
  | fuel+1, ps =>
    let (m, ps) := Parser.isMatch ps [.Class]
    let (result, ps) :=
      if m then Parser.classDeclaration fuel ps
      else
        let (m, ps) := Parser.isMatch ps [.Fun]
        if m then Parser.function fuel "function" ps
        else
          let (m, ps) := Parser.isMatch ps [.Var]
          if m then Parser.varDeclaration fuel ps
          else Parser.statement fuel ps
    match result with
    | .error e => (.error e, Parser.synchronize fuel ps)
    | .ok s => (.ok s, ps)

def Parser.classDeclaration : Nat → ParserState → Except LoxResult Stmt × ParserState
  | 0, ps => (.error parserOutOfFuel, ps)
  | fuel+1, ps =>
    match Parser.consume ps .Identifier "Expect a class name." with
    | (.error e, ps) => (.error e, ps)
    | (.ok name, ps) =>
      let (m, ps) := Parser.isMatch ps [.Less]
      let (sup, ps) :
          Except LoxResult (Option Expr) × ParserState :=
        if m then
          match Parser.consume ps .Identifier "Expect super class name." with
          | (.error e, ps) => (.error e, ps)
          | (.ok _, ps) => (.ok (some (Expr.Variable (Parser.previous ps).dup)), ps)
        else (.ok none, ps)
      match sup with
      | .error e => (.error e, ps)
      | .ok superclass =>
        match Parser.consume ps .LeftBrace "Expect \x27\x7b\x27 before class body." with
        | (.error e, ps) => (.error e, ps)
        | (.ok _, ps) =>
          match Parser.classMethodsLoop fuel [] ps with
          | (.error e, ps) => (.error e, ps)
          | (.ok methods, ps) =>
            match Parser.consume ps .RightBrace "Expect \x27\x7d\x27 before class body." with
            | (.error e, ps) => (.error e, ps)
            | (.ok _, ps) => (.ok (Stmt.Class name superclass methods), ps)

def Parser.classMethodsLoop : Nat → List Stmt → ParserState → Except LoxResult (List Stmt) × ParserState
  | 0, _, ps => (.error parserOutOfFuel, ps)
  | fuel+1, methods, ps =>
    if ¬ Parser.check ps .RightBrace ∧ ¬ Parser.isAtEnd ps then
      match Parser.function fuel "method" ps with
      | (.error e, ps) => (.error e, ps)
      | (.ok method, ps) => Parser.classMethodsLoop fuel (methods ++ [method]) ps
    else (.ok methods, ps)

def Parser.returnStatement : Nat → ParserState → Except LoxResult Stmt × ParserState
  | 0, ps => (.error parserOutOfFuel, ps)
  | fuel+1, ps =>
    let keyword := (Parser.previous ps).dup
    let (value, ps) :
        Except LoxResult (Option Expr) × ParserState :=
      if Parser.check ps .SemiColon then (.ok none, ps)
      else
        match Parser.expression fuel ps with
        | (.error e, ps) => (.error e, ps)
        | (.ok v, ps) => (.ok (some v), ps)
    match value with
    | .error e => (.error e, ps)
    | .ok value =>
      match Parser.consume ps .SemiColon "Expect \x27;\x27 after return value." with
      | (.error e, ps) => (.error e, ps)
      | (.ok _, ps) => (.ok (Stmt.Return keyword value), ps)

def Parser.varDeclaration : Nat → ParserState → Except LoxResult Stmt × ParserState
  | 0, ps => (.error parserOutOfFuel, ps)
  | fuel+1, ps =>
    match Parser.consume ps .Identifier "Expect variable name." with
    | (.error e, ps) => (.error e, ps)
    | (.ok name, ps) =>
      let (m, ps) := Parser.isMatch ps [.Assign]
      let (initializer, ps) :
          Except LoxResult (Option Expr) × ParserState :=
        if m then
          match Parser.expression fuel ps with
          | (.error e, ps) => (.error e, ps)
          | (.ok v, ps) => (.ok (some v), ps)
        else (.ok none, ps)
      match initializer with
      | .error e => (.error e, ps)
      | .ok initializer =>
        match Parser.consume ps .SemiColon "Expect \x27;\x27 after variable declaration." with
        | (.error e, ps) => (.error e, ps)
        | (.ok _, ps) => (.ok (Stmt.Var name initializer), ps)

def Parser.whileStatement : Nat → ParserState → Except LoxResult Stmt × ParserState
  | 0, ps => (.error parserOutOfFuel, ps)
  | fuel+1, ps =>
    match Parser.consume ps .LeftParen "Expect \x27(\x27 after \x27while\x27." with
    | (.error e, ps) => (.error e, ps)
    | (.ok _, ps) =>
      match Parser.expression fuel ps with
      | (.error e, ps) => (.error e, ps)
      | (.ok condition, ps) =>
        match Parser.consume ps .RightParen "Expect \x27)\x27 after \x27while\x27." with
        | (.error e, ps) => (.error e, ps)
        | (.ok _, ps) =>
          match Parser.statement fuel ps with
          | (.error e, ps) => (.error e, ps)
          | (.ok body, ps) => (.ok (Stmt.While condition body), ps)

def Parser.statement : Nat → ParserState → Except LoxResult Stmt × ParserState
  | 0, ps => (.error parserOutOfFuel, ps)
  | fuel+1, ps =>
    let (m, ps) := Parser.isMatch ps [.Break]
    if m then
      let token := (Parser.previous ps).dup
      match Parser.consume ps .SemiColon "Expect \x27;\x27 after \x27break\x27." with
      | (.error e, ps) => (.error e, ps)
      | (.ok _, ps) => (.ok (Stmt.Break token), ps)
    else
      let (m, ps) := Parser.isMatch ps [.For]
      if m then Parser.forStatement fuel ps
      else
        let (m, ps) := Parser.isMatch ps [.If]
        if m then Parser.ifStatement fuel ps
        else
          let (m, ps) := Parser.isMatch ps [.Print]
          if m then Parser.printStatement fuel ps
          else
            let (m, ps) := Parser.isMatch ps [.Return]
            if m then Parser.returnStatement fuel ps
            else
              let (m, ps) := Parser.isMatch ps [.While]
              if m then Parser.whileStatement fuel ps
              else
                let (m, ps) := Parser.isMatch ps [.LeftBrace]
                if m then
                  match Parser.block fuel ps with
                  | (.error e, ps) => (.error e, ps)
                  | (.ok statements, ps) => (.ok (Stmt.Block statements), ps)
                else Parser.expressionStatement fuel ps

def Parser.forStatement : Nat → ParserState → Except LoxResult Stmt × ParserState
  | 0, ps => (.error parserOutOfFuel, ps)
  | fuel+1, ps =>
    match Parser.consume ps .LeftParen "Expect \x27(\x27 after \x27for\x27." with
    | (.error e, ps) => (.error e, ps)
    | (.ok _, ps) =>
      let (m, ps) := Parser.isMatch ps [.SemiColon]
      let (initializer, ps) :
          Except LoxResult (Option Stmt) × ParserState :=
        if m then (.ok none, ps)
        else
          let (m, ps) := Parser.isMatch ps [.Var]
          if m then
            match Parser.varDeclaration fuel ps with
            | (.error e, ps) => (.error e, ps)
            | (.ok s, ps) => (.ok (some s), ps)
          else
            match Parser.expressionStatement fuel ps with
            | (.error e, ps) => (.error e, ps)
            | (.ok s, ps) => (.ok (some s), ps)
      match initializer with
      | .error e => (.error e, ps)
      | .ok initializer =>
        let (cond, ps) :
            Except LoxResult Expr × ParserState :=
          if Parser.check ps .SemiColon then
            (.ok (Expr.Literal (some (Object.Bool true))), ps)
          else Parser.expression fuel ps
        match cond with
        | .error e => (.error e, ps)
        | .ok condition =>
          match Parser.consume ps .SemiColon "Expect \x27;\x27 after loop condition." with
          | (.error e, ps) => (.error e, ps)
          | (.ok _, ps) =>
            let (inc, ps) :
                Except LoxResult (Option Expr) × ParserState :=
              if Parser.check ps .RightParen then (.ok none, ps)
              else
                match Parser.expression fuel ps with
                | (.error e, ps) => (.error e, ps)
                | (.ok v, ps) => (.ok (some v), ps)
            match inc with
            | .error e => (.error e, ps)
            | .ok increment =>
              match Parser.consume ps .RightParen "Expect \x27)\x27 after loop condition." with
              | (.error e, ps) => (.error e, ps)
              | (.ok _, ps) =>
                match Parser.statement fuel ps with
                | (.error e, ps) => (.error e, ps)
                | (.ok body, ps) =>
                  let body :=
                    match increment with
                    | some increment =>
                      Stmt.Block [body, Stmt.Expression increment]
                    | none => body
                  let body := Stmt.While condition body
                  let body :=
                    match initializer with
                    | some init => Stmt.Block [init, body]
                    | none => body
                  (.ok body, ps)

def Parser.ifStatement : Nat → ParserState → Except LoxResult Stmt × ParserState
  | 0, ps => (.error parserOutOfFuel, ps)
  | fuel+1, ps =>
    match Parser.consume ps .LeftParen "Expect \x27(\x27 after \x27if\x27." with
    | (.error e, ps) => (.error e, ps)
    | (.ok _, ps) =>
      match Parser.expression fuel ps with
      | (.error e, ps) => (.error e, ps)
      | (.ok condition, ps) =>
        match Parser.consume ps .RightParen "Expect \x27)\x27 after \x27if\x27." with
        | (.error e, ps) => (.error e, ps)
        | (.ok _, ps) =>
          match Parser.statement fuel ps with
          | (.error e, ps) => (.error e, ps)
          | (.ok thenBranch, ps) =>
            let (m, ps) := Parser.isMatch ps [.Else]
            if m then
              match Parser.statement fuel ps with
              | (.error e, ps) => (.error e, ps)
              | (.ok elseBranch, ps) =>
                (.ok (Stmt.If condition thenBranch (some elseBranch)), ps)
            else (.ok (Stmt.If condition thenBranch none), ps)

def Parser.block : Nat → ParserState → Except LoxResult (List Stmt) × ParserState
  | 0, ps => (.error parserOutOfFuel, ps)
  | fuel+1, ps =>
    match Parser.blockLoop fuel [] ps with
    | (.error e, ps) => (.error e, ps)
    | (.ok statements, ps) =>
      match Parser.consume ps .RightBrace "Expect \x27\x7d\x27 after block." with
      | (.error e, ps) => (.error e, ps)
      | (.ok _, ps) => (.ok statements, ps)

def Parser.blockLoop : Nat → List Stmt → ParserState → Except LoxResult (List Stmt) × ParserState
  | 0, _, ps => (.error parserOutOfFuel, ps)
  | fuel+1, statements, ps =>
    if ¬ Parser.check ps .RightBrace ∧ ¬ Parser.isAtEnd ps then
      match Parser.declaration fuel ps with
      | (.error e, ps) => (.error e, ps)
      | (.ok s, ps) => Parser.blockLoop fuel (statements ++ [s]) ps
    else (.ok statements, ps)

def Parser.printStatement : Nat → ParserState → Except LoxResult Stmt × ParserState
  | 0, ps => (.error parserOutOfFuel, ps)
  | fuel+1, ps =>
    match Parser.expression fuel ps with
    | (.error e, ps) => (.error e, ps)
    | (.ok value, ps) =>
      match Parser.consume ps .SemiColon "Expect \x27;\x27 after value." with
      | (.error e, ps) => (.error e, ps)
      | (.ok _, ps) => (.ok (Stmt.Print value), ps)

def Parser.expressionStatement : Nat → ParserState → Except LoxResult Stmt × ParserState
  | 0, ps => (.error parserOutOfFuel, ps)
  | fuel+1, ps =>
    match Parser.expression fuel ps with
    | (.error e, ps) => (.error e, ps)
    | (.ok value, ps) =>
      match Parser.consume ps .SemiColon "Expect \x27;\x27 after expression." with
      | (.error e, ps) => (.error e, ps)
      | (.ok _, ps) => (.ok (Stmt.Expression value), ps)

def Parser.function : Nat → String → ParserState → Except LoxResult Stmt × ParserState
  | 0, _, ps => (.error parserOutOfFuel, ps)
  | fuel+1, kind, ps =>
    match Parser.consume ps .Identifier ("Expect " ++ kind ++ " name.") with
    | (.error e, ps) => (.error e, ps)
    | (.ok name, ps) =>
      match Parser.consume ps .LeftParen ("Expect \x27(\x27 after " ++ kind ++ " name.") with
      | (.error e, ps) => (.error e, ps)
      | (.ok _, ps) =>
        let (params, ps) :
            Except LoxResult (List Token) × ParserState :=
          if ¬ Parser.check ps .RightParen then
            match Parser.consume ps .Identifier "Expect paramter name." with
            | (.error e, ps) => (.error e, ps)
            | (.ok p, ps) => Parser.paramsLoop fuel [p] ps
          else (.ok [], ps)
        match params with
        | .error e => (.error e, ps)
        | .ok params =>
          match Parser.consume ps .RightParen "Expect \x27)\x27 after parameters." with
          | (.error e, ps) => (.error e, ps)
          | (.ok _, ps) =>
            match Parser.consume ps .LeftBrace ("Expect \x27\x7b\x27 after " ++ kind ++ " body.") with
            | (.error e, ps) => (.error e, ps)
            | (.ok _, ps) =>
              match Parser.block fuel ps with
              | (.error e, ps) => (.error e, ps)
              | (.ok body, ps) => (.ok (Stmt.Function name params body), ps)

def Parser.paramsLoop : Nat → List Token → ParserState → Except LoxResult (List Token) × ParserState
  | 0, _, ps => (.error parserOutOfFuel, ps)
  | fuel+1, params, ps =>
    let (m, ps) := Parser.isMatch ps [.Comma]
    if m then
      let ps :=
        if params.length ≥ 255 ∧ ps.hasError = false then
          (Parser.error ps (Parser.peek ps).dup "Can`t have more than 255 parameters.").2
        else ps
      match Parser.consume ps .Identifier "Expect paramter name." with
      | (.error e, ps) => (.error e, ps)
      | (.ok p, ps) => Parser.paramsLoop fuel (params ++ [p]) ps
    else (.ok params, ps)

def Parser.assignment : Nat → ParserState → Except LoxResult Expr × ParserState
  | 0, ps => (.error parserOutOfFuel, ps)
  | fuel+1, ps =>
    match Parser.orExpr fuel ps with
    | (.error e, ps) => (.error e, ps)
    | (.ok expr, ps) =>
      let (m, ps) := Parser.isMatch ps [.Assign]
      if m then
        let equals := (Parser.previous ps).dup
        match Parser.assignment fuel ps with
        | (.error e, ps) => (.error e, ps)
        | (.ok value, ps) =>
          match expr with
          | .Variable name => (.ok (Expr.Assign name.dup value), ps)
          | .Get object name => (.ok (Expr.Set object name.dup value), ps)
          | _ =>
            let (_, ps) := Parser.error ps equals "Invalid assignment target."
            (.ok expr, ps)
      else (.ok expr, ps)

def Parser.orExpr : Nat → ParserState → Except LoxResult Expr × ParserState
  | 0, ps => (.error parserOutOfFuel, ps)
  | fuel+1, ps =>
    match Parser.andExpr fuel ps with
    | (.error e, ps) => (.error e, ps)
    | (.ok expr, ps) => Parser.orLoop fuel expr ps

def Parser.orLoop : Nat → Expr → ParserState → Except LoxResult Expr × ParserState
  | 0, _, ps => (.error parserOutOfFuel, ps)
  | fuel+1, expr, ps =>
    let (m, ps) := Parser.isMatch ps [.Or]
    if m then
      let operator := (Parser.previous ps).dup
      match Parser.andExpr fuel ps with
      | (.error e, ps) => (.error e, ps)
      | (.ok right, ps) => Parser.orLoop fuel (Expr.Logical expr operator right) ps
    else (.ok expr, ps)

def Parser.andExpr : Nat → ParserState → Except LoxResult Expr × ParserState
  | 0, ps => (.error parserOutOfFuel, ps)
  | fuel+1, ps =>
    match Parser.equality fuel ps with
    | (.error e, ps) => (.error e, ps)
    | (.ok expr, ps) => Parser.andLoop fuel expr ps

def Parser.andLoop : Nat → Expr → ParserState → Except LoxResult Expr × ParserState
  | 0, _, ps => (.error parserOutOfFuel, ps)
  | fuel+1, expr, ps =>
    let (m, ps) := Parser.isMatch ps [.And]
    if m then
      let operator := (Parser.previous ps).dup
      match Parser.equality fuel ps with
      | (.error e, ps) => (.error e, ps)
      | (.ok right, ps) => Parser.andLoop fuel (Expr.Logical expr operator right) ps
    else (.ok expr, ps)

def Parser.expression : Nat → ParserState → Except LoxResult Expr × ParserState
  | 0, ps => (.error parserOutOfFuel, ps)
  | fuel+1, ps => Parser.assignment fuel ps

def Parser.equality : Nat → ParserState → Except LoxResult Expr × ParserState
  | 0, ps => (.error parserOutOfFuel, ps)
  | fuel+1, ps =>
    match Parser.comparison fuel ps with
    | (.error e, ps) => (.error e, ps)
    | (.ok expr, ps) => Parser.equalityLoop fuel expr ps

def Parser.equalityLoop : Nat → Expr → ParserState → Except LoxResult Expr × ParserState
  | 0, _, ps => (.error parserOutOfFuel, ps)
  | fuel+1, expr, ps =>
    let (m, ps) := Parser.isMatch ps [.BangEqual, .Equal]
    if m then
      let operator := (Parser.previous ps).dup
      match Parser.comparison fuel ps with
      | (.error e, ps) => (.error e, ps)
      | (.ok right, ps) => Parser.equalityLoop fuel (Expr.Binary expr operator right) ps
    else (.ok expr, ps)

def Parser.comparison : Nat → ParserState → Except LoxResult Expr × ParserState
  | 0, ps => (.error parserOutOfFuel, ps)
  | fuel+1, ps =>
    match Parser.term fuel ps with
    | (.error e, ps) => (.error e, ps)
    | (.ok expr, ps) => Parser.comparisonLoop fuel expr ps

def Parser.comparisonLoop : Nat → Expr → ParserState → Except LoxResult Expr × ParserState
  | 0, _, ps => (.error parserOutOfFuel, ps)
  | fuel+1, expr, ps =>
    let (m, ps) := Parser.isMatch ps [.Greater, .GreaterEqual, .Less, .LessEqual]
    if m then
      let operator := (Parser.previous ps).dup
      match Parser.term fuel ps with
      | (.error e, ps) => (.error e, ps)
      | (.ok right, ps) => Parser.comparisonLoop fuel (Expr.Binary expr operator right) ps
    else (.ok expr, ps)

def Parser.term : Nat → ParserState → Except LoxResult Expr × ParserState
  | 0, ps => (.error parserOutOfFuel, ps)
  | fuel+1, ps =>
    match Parser.factor fuel ps with
    | (.error e, ps) => (.error e, ps)
    | (.ok expr, ps) => Parser.termLoop fuel expr ps

def Parser.termLoop : Nat → Expr → ParserState → Except LoxResult Expr × ParserState
  | 0, _, ps => (.error parserOutOfFuel, ps)
  | fuel+1, expr, ps =>
    let (m, ps) := Parser.isMatch ps [.Minus, .Plus]
    if m then
      let operator := (Parser.previous ps).dup
      match Parser.factor fuel ps with
      | (.error e, ps) => (.error e, ps)
      | (.ok right, ps) => Parser.termLoop fuel (Expr.Binary expr operator right) ps
    else (.ok expr, ps)

def Parser.factor : Nat → ParserState → Except LoxResult Expr × ParserState
  | 0, ps => (.error parserOutOfFuel, ps)
  | fuel+1, ps =>
    match Parser.unary fuel ps with
    | (.error e, ps) => (.error e, ps)
    | (.ok expr, ps) => Parser.factorLoop fuel expr ps

def Parser.factorLoop : Nat → Expr → ParserState → Except LoxResult Expr × ParserState
  | 0, _, ps => (.error parserOutOfFuel, ps)
  | fuel+1, expr, ps =>
    let (m, ps) := Parser.isMatch ps [.Slash, .Star]
    if m then
      let operator := (Parser.previous ps).dup
      match Parser.unary fuel ps with
      | (.error e, ps) => (.error e, ps)
      | (.ok right, ps) => Parser.factorLoop fuel (Expr.Binary expr operator right) ps
    else (.ok expr, ps)

def Parser.unary : Nat → ParserState → Except LoxResult Expr × ParserState
  | 0, ps => (.error parserOutOfFuel, ps)
  | fuel+1, ps =>
    let (m, ps) := Parser.isMatch ps [.Bang, .Minus]
    if m then
      let operator := (Parser.previous ps).dup
      match Parser.unary fuel ps with
      | (.error e, ps) => (.error e, ps)
      | (.ok right, ps) => (.ok (Expr.Unary operator right), ps)
    else Parser.callExpr fuel ps

def Parser.callExpr : Nat → ParserState → Except LoxResult Expr × ParserState
  | 0, ps => (.error parserOutOfFuel, ps)
  | fuel+1, ps =>
    match Parser.primary fuel ps with
    | (.error e, ps) => (.error e, ps)
    | (.ok expr, ps) => Parser.callLoop fuel expr ps

def Parser.callLoop : Nat → Expr → ParserState → Except LoxResult Expr × ParserState
  | 0, _, ps => (.error parserOutOfFuel, ps)
  | fuel+1, expr, ps =>
    let (m, ps) := Parser.isMatch ps [.LeftParen]
    if m then
      match Parser.finishCall fuel expr ps with
      | (.error e, ps) => (.error e, ps)
      | (.ok expr, ps) => Parser.callLoop fuel expr ps
    else
      let (m, ps) := Parser.isMatch ps [.Dot]
      if m then
        match Parser.consume ps .Identifier "Expect property name after \x27.\x27." with
        | (.error e, ps) => (.error e, ps)
        | (.ok name, ps) => Parser.callLoop fuel (Expr.Get expr name) ps
      else (.ok expr, ps)

def Parser.finishCall : Nat → Expr → ParserState → Except LoxResult Expr × ParserState
  | 0, _, ps => (.error parserOutOfFuel, ps)
  | fuel+1, callee, ps =>
    let (args, ps) :
        Except LoxResult (List Expr) × ParserState :=
      if ¬ Parser.check ps .RightParen then
        match Parser.expression fuel ps with
        | (.error e, ps) => (.error e, ps)
        | (.ok a, ps) => Parser.argsLoop fuel [a] ps
      else (.ok [], ps)
    match args with
    | .error e => (.error e, ps)
    | .ok arguments =>
      match Parser.consume ps .RightParen "Expect \x27)\x27 after arguments" with
      | (.error e, ps) => (.error e, ps)
      | (.ok paren, ps) => (.ok (Expr.Call callee paren arguments), ps)

def Parser.argsLoop : Nat → List Expr → ParserState → Except LoxResult (List Expr) × ParserState
  | 0, _, ps => (.error parserOutOfFuel, ps)
  | fuel+1, arguments, ps =>
    let (m, ps) := Parser.isMatch ps [.Comma]
    if m then
      if arguments.length ≥ 255 then
        let (e, ps) := Parser.error ps (Parser.peek ps).dup "Can`t have more than 255 arguments."
        (.error e, ps)
      else
        match Parser.expression fuel ps with
        | (.error e, ps) => (.error e, ps)
        | (.ok a, ps) => Parser.argsLoop fuel (arguments ++ [a]) ps
    else (.ok arguments, ps)

def Parser.primary : Nat → ParserState → Except LoxResult Expr × ParserState
  | 0, ps => (.error parserOutOfFuel, ps)
  | fuel+1, ps =>
    let (m, ps) := Parser.isMatch ps [.False]
    if m then (.ok (Expr.Literal (some (Object.Bool false))), ps)
    else
      let (m, ps) := Parser.isMatch ps [.True]
      if m then (.ok (Expr.Literal (some (Object.Bool true))), ps)
      else
        let (m, ps) := Parser.isMatch ps [.Nil]
        if m then (.ok (Expr.Literal (some Object.Nil)), ps)
        else
          let (m, ps) := Parser.isMatch ps [.String, .Number]
          if m then (.ok (Expr.Literal (Parser.previous ps).dup.literal), ps)
          else
            let (m, ps) := Parser.isMatch ps [.Super]
            if m then
              let keyword := (Parser.previous ps).dup
              match Parser.consume ps .Dot "Expect \x27.\x27 after \x27super\x27." with
              | (.error e, ps) => (.error e, ps)
              | (.ok _, ps) =>
                match Parser.consume ps .Dot "Expect superclass method name." with
                | (.error e, ps) => (.error e, ps)
                | (.ok method, ps) => (.ok (Expr.Super keyword method), ps)
            else
              let (m, ps) := Parser.isMatch ps [.This]
              if m then (.ok (Expr.This (Parser.previous ps).dup), ps)
              else
                let (m, ps) := Parser.isMatch ps [.Identifier]
                if m then (.ok (Expr.Variable (Parser.previous ps).dup), ps)
                else
                  let (m, ps) := Parser.isMatch ps [.LeftParen]
                  if m then
                    match Parser.expression fuel ps with
                    | (.error e, ps) => (.error e, ps)
                    | (.ok expr, ps) =>
                      match Parser.consume ps .RightParen "Expect \x27)\x27 after expression." with
                      | (.error e, ps) => (.error e, ps)
                      | (.ok _, ps) => (.ok (Expr.Grouping expr), ps)
                  else
                    (.error (LoxResult.parseError (Parser.peek ps).dup "Expect expression."), ps)

end

def Parser.parseLoop : Nat → ParserState → List Stmt → List Stmt × ParserState
  | 0, ps, statements => (statements, ps)
  | fuel+1, ps, statements =>
    if ¬ Parser.isAtEnd ps then
      match Parser.declaration fuel ps with
      | (.ok s, ps) => Parser.parseLoop fuel ps (statements ++ [s])
      | (.error e, ps) =>
        Parser.parseLoop fuel { ps with reported := ps.reported ++ [e] } statements
    else (statements, ps)

/-- Rust `Parser::parse` builds a best-effort statement list; each declaration error is
reported (`e.report()`) and parsing continues. -/
def Parser.parse (fuel : Nat) (ps : ParserState) : Except LoxResult (List Stmt) × ParserState :=
  let (statements, ps) := Parser.parseLoop fuel ps []
  (.ok statements, ps)

def parserNew (tokens : List Token) : ParserState :=
  ⟨tokens, 0, false, []⟩

/-! ### resolver.rs

The scope stack is a list with the INNERMOST scope at the head (the Rust
`Vec` pushes/pops at the end; `scopes.last()` is the head here, and
`iter().rev().enumerate()` is plain head-first traversal, so a scope's
index is its distance).  `interpreter.resolve(expr, depth)`, keyed by AST
node identity in Rust, is modelled by recording `(lexeme, depth)` events in
`locals` (no claim below depends on the keying).  The resolver's `error`
both sets the flag and reports (`lox_err.report()`). -/

inductive FunctionType
  | None | Function | Method | Initializer
deriving DecidableEq

inductive ClassType
  | None | Class | SubClass
deriving DecidableEq

structure ResolverState where
  scopes : List (List (String × Bool))
  hasError : Bool
  currentFunType : FunctionType
  currentClassType : ClassType
  inWhile : Bool
  reported : List LoxResult
  locals : List (String × Nat)

def resolverOutOfFuel : LoxResult := LoxResult.systemError "model: resolver out of fuel"

def Resolver.error (rs : ResolverState) (token : Token) (message : String) : ResolverState :=
  { rs with hasError := true,
            reported := rs.reported ++ [LoxResult.parseError token message] }

def Resolver.success (rs : ResolverState) : Bool :=
  ¬ rs.hasError

def Resolver.beginScope (rs : ResolverState) : ResolverState :=
  { rs with scopes := [] :: rs.scopes }

def Resolver.endScope (rs : ResolverState) : ResolverState :=
  { rs with scopes := rs.scopes.tail }

def Resolver.declare (rs : ResolverState) (name : Token) : ResolverState :=
  match rs.scopes with
  | [] => rs
  | scope :: rest =>
    let rs :=
      if alistContains scope name.asString then
        Resolver.error rs name.dup "Already a variable with this name in this scope."
      else rs
    { rs with scopes := alistInsert scope name.asString false :: rest }

def Resolver.define (rs : ResolverState) (name : Token) : ResolverState :=
  match rs.scopes with
  | [] => rs
  | scope :: rest => { rs with scopes := alistInsert scope name.asString true :: rest }

/-- Index of the nearest scope (innermost = 0) containing `name`. -/
def scopeDepthOf (scopes : List (List (String × Bool))) (name : String) : Option Nat :=
  scopes.findIdx? (fun scope => alistContains scope name)

def Resolver.resolveLocal (rs : ResolverState) (name : Token) : ResolverState :=
  match scopeDepthOf rs.scopes name.asString with
  | some depth => { rs with locals := rs.locals ++ [(name.asString, depth)] }
  | none => rs

mutual

def Resolver.resolveStmt : Nat → Stmt → ResolverState → Except LoxResult Unit × ResolverState
  | 0, _, rs => (.error resolverOutOfFuel, rs)
  | fuel+1, stmt, rs =>
    match stmt with
    | .Block statements =>
      let rs := Resolver.beginScope rs
      match Resolver.resolveStmts fuel statements rs with
      | (.error e, rs) => (.error e, rs)
      | (.ok _, rs) => (.ok (), Resolver.endScope rs)
    | .Class name superclass methods =>
      let enclosingClass := rs.currentClassType
      let rs := { rs with currentClassType := .Class }
      let rs := Resolver.declare rs name
      let rs := Resolver.define rs name
      let (sup, rs) :
          Except LoxResult Unit × ResolverState :=
        match superclass with
        | some supExpr =>
          match supExpr with
          | .Variable supName =>
            if name.asString = supName.asString then
              (.ok (), Resolver.error rs name.dup "A class cannot inherit from itself")
            else
              let rs := { rs with currentClassType := .SubClass }
              match Resolver.resolveExpr fuel supExpr rs with
              | (.error e, rs) => (.error e, rs)
              | (.ok _, rs) =>
                let rs := Resolver.beginScope rs
                let rs :=
                  match rs.scopes with
                  | [] => rs
                  | scope :: rest =>
                    { rs with scopes := alistInsert scope "super" true :: rest }
                (.ok (), rs)
          | _ => (.ok (), Resolver.error rs name.dup "Get superclass name failed.")
        | none => (.ok (), rs)
      match sup with
      | .error e => (.error e, rs)
      | .ok _ =>
        let rs := Resolver.beginScope rs
        let rs :=
          match rs.scopes with
          | [] => rs
          | scope :: rest => { rs with scopes := alistInsert scope "this" true :: rest }
        match Resolver.resolveMethodsLoop fuel name methods rs with
        | (.error e, rs) => (.error e, rs)
        | (.ok _, rs) =>
          let rs := Resolver.endScope rs
          let rs := if superclass.isSome then Resolver.endScope rs else rs
          (.ok (), { rs with currentClassType := enclosingClass })
    | .Break token =>
      let rs :=
        if rs.inWhile = false then
          Resolver.error rs token.dup "Break statement outside of a for/while loop"
        else rs
      (.ok (), rs)
    | .Expression expression =>
      match Resolver.resolveExpr fuel expression rs with
      | (.error e, rs) => (.error e, rs)
      | (.ok _, rs) => (.ok (), rs)
    | .Function name params body =>
      let rs := Resolver.declare rs name
      let rs := Resolver.define rs name
      match Resolver.resolveFunction fuel params body .Function rs with
      | (.error e, rs) => (.error e, rs)
      | (.ok _, rs) => (.ok (), rs)
    | .If condition thenBranch elseBranch =>
      match Resolver.resolveExpr fuel condition rs with
      | (.error e, rs) => (.error e, rs)
      | (.ok _, rs) =>
        match Resolver.resolveStmt fuel thenBranch rs with
        | (.error e, rs) => (.error e, rs)
        | (.ok _, rs) =>
          match elseBranch with
          | some elseStmt =>
            match Resolver.resolveStmt fuel elseStmt rs with
            | (.error e, rs) => (.error e, rs)
            | (.ok _, rs) => (.ok (), rs)
          | none => (.ok (), rs)
    | .Print expression =>
      match Resolver.resolveExpr fuel expression rs with
      | (.error e, rs) => (.error e, rs)
      | (.ok _, rs) => (.ok (), rs)
    | .Return keyword value =>
      let rs :=
        if rs.currentFunType = .None then
          Resolver.error rs keyword.dup "Can\x27t return from top-level code."
        else rs
      (match value with
       | some v =>
         let rs :=
           if rs.currentFunType = .Initializer then
             Resolver.error rs keyword.dup "Can\x27t return a value from an initializer."
           else rs
         match Resolver.resolveExpr fuel v rs with
         | (.error e, rs) => (.error e, rs)
         | (.ok _, rs) => (.ok (), rs)
       | none => (.ok (), rs))
    | .Var name initializer =>
      let rs := Resolver.declare rs name
      let (r, rs) :
          Except LoxResult Unit × ResolverState :=
        match initializer with
        | some init => Resolver.resolveExpr fuel init rs
        | none => (.ok (), rs)
      match r with
      | .error e => (.error e, rs)
      | .ok _ => (.ok (), Resolver.define rs name)
    | .While condition body =>
      let previousNesting := rs.inWhile
      let rs := { rs with inWhile := true }
      match Resolver.resolveExpr fuel condition rs with
      | (.error e, rs) => (.error e, rs)
      | (.ok _, rs) =>
        match Resolver.resolveStmt fuel body rs with
        | (.error e, rs) => (.error e, rs)
        | (.ok _, rs) => (.ok (), { rs with inWhile := previousNesting })

def Resolver.resolveExpr : Nat → Expr → ResolverState → Except LoxResult Unit × ResolverState
  | 0, _, rs => (.error resolverOutOfFuel, rs)
  | fuel+1, expr, rs =>
    match expr with
    | .Assign name value =>
      match Resolver.resolveExpr fuel value rs with
      | (.error e, rs) => (.error e, rs)
      | (.ok _, rs) => (.ok (), Resolver.resolveLocal rs name)
    | .Binary left _ right =>
      match Resolver.resolveExpr fuel left rs with
      | (.error e, rs) => (.error e, rs)
      | (.ok _, rs) =>
        match Resolver.resolveExpr fuel right rs with
        | (.error e, rs) => (.error e, rs)
        | (.ok _, rs) => (.ok (), rs)
    | .Call callee _ arguments =>
      match Resolver.resolveExpr fuel callee rs with
      | (.error e, rs) => (.error e, rs)
      | (.ok _, rs) => Resolver.resolveArgsLoop fuel arguments rs
    | .Get object _ =>
      match Resolver.resolveExpr fuel object rs with
      | (.error e, rs) => (.error e, rs)
      | (.ok _, rs) => (.ok (), rs)
    | .Grouping expression =>
      match Resolver.resolveExpr fuel expression rs with
      | (.error e, rs) => (.error e, rs)
      | (.ok _, rs) => (.ok (), rs)
    | .Literal _ => (.ok (), rs)
    | .Logical left _ right =>
      match Resolver.resolveExpr fuel left rs with
      | (.error e, rs) => (.error e, rs)
      | (.ok _, rs) =>
        match Resolver.resolveExpr fuel right rs with
        | (.error e, rs) => (.error e, rs)
        | (.ok _, rs) => (.ok (), rs)
    | .Set object _ value =>
      match Resolver.resolveExpr fuel value rs with
      | (.error e, rs) => (.error e, rs)
      | (.ok _, rs) =>
        match Resolver.resolveExpr fuel object rs with
        | (.error e, rs) => (.error e, rs)
        | (.ok _, rs) => (.ok (), rs)
    | .Super keyword _ =>
      let rs :=
        if rs.currentClassType = .None then
          Resolver.error rs keyword.dup "Can`t use super outside of a class."
        else if rs.currentClassType ≠ .SubClass then
          Resolver.error rs keyword.dup "Can`t use \x27super\x27 in a class whit no superclass."
        else rs
      (.ok (), Resolver.resolveLocal rs keyword)
    | .This keyword =>
      let rs :=
        if rs.currentClassType = .None then
          Resolver.error rs keyword.dup "Can\x27t use \x27this\x27 outside a class."
        else rs
      (.ok (), Resolver.resolveLocal rs keyword)
    | .Unary _ right =>
      match Resolver.resolveExpr fuel right rs with
      | (.error e, rs) => (.error e, rs)
      | (.ok _, rs) => (.ok (), rs)
    | .Variable name =>
      if rs.scopes ≠ [] ∧
          alistLookup (rs.scopes.headD []) name.asString = some false then
        (.error (LoxResult.runtimeError name.dup
          "Can`t read local variable in its own initializer."), rs)
      else (.ok (), Resolver.resolveLocal rs name)

def Resolver.resolveStmts : Nat → List Stmt → ResolverState → Except LoxResult Unit × ResolverState
  | 0, _, rs => (.error resolverOutOfFuel, rs)
  | _+1, [], rs => (.ok (), rs)
  | fuel+1, s :: rest, rs =>
    match Resolver.resolveStmt fuel s rs with
    | (.error e, rs) => (.error e, rs)
    | (.ok _, rs) => Resolver.resolveStmts fuel rest rs

def Resolver.resolveArgsLoop : Nat → List Expr → ResolverState → Except LoxResult Unit × ResolverState
  | 0, _, rs => (.error resolverOutOfFuel, rs)
  | _+1, [], rs => (.ok (), rs)
  | fuel+1, a :: rest, rs =>
    match Resolver.resolveExpr fuel a rs with
    | (.error e, rs) => (.error e, rs)
    | (.ok _, rs) => Resolver.resolveArgsLoop fuel rest rs

def Resolver.resolveMethodsLoop : Nat → Token → List Stmt → ResolverState → Except LoxResult Unit × ResolverState
  | 0, _, _, rs => (.error resolverOutOfFuel, rs)
  | _+1, _, [], rs => (.ok (), rs)
  | fuel+1, className, method :: rest, rs =>
    match method with
    | .Function name params body =>
      let declaration :=
        if name.asString = "init" then FunctionType.Initializer else FunctionType.Method
      match Resolver.resolveFunction fuel params body declaration rs with
      | (.error e, rs) => (.error e, rs)
      | (.ok _, rs) => Resolver.resolveMethodsLoop fuel className rest rs
    | _ =>
      (.error (LoxResult.runtimeError className.dup
        "Class method did not resolve into a function statement."), rs)

def Resolver.resolveFunction : Nat → List Token → List Stmt → FunctionType → ResolverState → Except LoxResult Unit × ResolverState
  | 0, _, _, _, rs => (.error resolverOutOfFuel, rs)
  | fuel+1, params, body, funcType, rs =>
    let enclosingFunc := rs.currentFunType
    let rs := { rs with currentFunType := funcType }
    let rs := Resolver.beginScope rs
    let rs := params.foldl (fun rs param => Resolver.define (Resolver.declare rs param) param) rs
    match Resolver.resolveStmts fuel body rs with
    | (.error e, rs) => (.error e, rs)
    | (.ok _, rs) =>
      (.ok (), { (Resolver.endScope rs) with currentFunType := enclosingFunc })

end

def resolverNew : ResolverState :=
  ⟨[], false, .None, .None, false, [], []⟩

/-! ### The interpreter's frame store

`Rc<RefCell<Environment>>` cells are modelled as a store of frames
addressed by allocation index; `enclosing` holds the parent's index.  This
preserves the sharing semantics: a mutation through any holder of an index
is visible to every other holder, exactly as through the `Rc`.  Frame 0 is
`globals`. -/

structure Frame where
  vars : List (String × Object)
  enclosing : Option Nat

structure InterpState where
  frames : List Frame
  environment : Nat
  nest : Nat
  output : List String

def framesGet (st : InterpState) (i : Nat) : Frame :=
  st.frames.getD i ⟨[], none⟩

def framesSet (st : InterpState) (i : Nat) (f : Frame) : InterpState :=
  { st with frames := st.frames.set i f }

/-- Models `Rc::new(RefCell::new(env))`: a fresh cell. -/
def allocFrame (st : InterpState) (f : Frame) : Nat × InterpState :=
  (st.frames.length, { st with frames := st.frames ++ [f] })

/-- Rust `Environment::define` through the store. -/
def envDefine (st : InterpState) (i : Nat) (name : String) (value : Object) : InterpState :=
  let f := framesGet st i
  framesSet st i { f with vars := alistInsert f.vars name value }

/-- Rust `Environment::get` through the store; the chain walk is fuel-driven
(frames allocated by the interpreter always point to older frames, so the
chain is acyclic and `frames.length` fuel suffices on reachable states). -/
def envGet : Nat → InterpState → Nat → Token → Except LoxResult Object
  | 0, _, _, name => .error (LoxResult.runtimeError name.dup (undefinedVariableMsg name))
  | fuel+1, st, i, name =>
    let f := framesGet st i
    match alistLookup f.vars name.asString with
    | some object => .ok object
    | none =>
      match f.enclosing with
      | some enclosing => envGet fuel st enclosing name
      | none => .error (LoxResult.runtimeError name.dup (undefinedVariableMsg name))

/-- Rust `Environment::assign` through the store. -/
def envAssign : Nat → InterpState → Nat → Token → Object → Except LoxResult Unit × InterpState
  | 0, st, _, name, _ => (.error (LoxResult.runtimeError name.dup (undefinedVariableMsg name)), st)
  | fuel+1, st, i, name, value =>
    let f := framesGet st i
    if alistContains f.vars name.asString then
      (.ok (), framesSet st i { f with vars := alistInsert f.vars name.asString value })
    else
      match f.enclosing with
      | some enclosing => envAssign fuel st enclosing name value
      | none => (.error (LoxResult.runtimeError name.dup (undefinedVariableMsg name)), st)

/-- Rust `Environment::get_at(distance, name)` (used by `LoxFunction::call` for
initializers; its definition is absent from the snapshot and is the
standard walk of exactly `distance` parent links). -/
def envGetAt : Nat → InterpState → Nat → String → Except LoxResult Object
  | 0, st, i, name =>
    match alistLookup (framesGet st i).vars name with
    | some object => .ok object
    | none => .error (LoxResult.systemError "get_at: name not present at distance")
  | distance+1, st, i, name =>
    match (framesGet st i).enclosing with
    | some enclosing => envGetAt distance st enclosing name
    | none => .error (LoxResult.systemError "get_at: chain too short")

/-! ### lox_class.rs / lox_instance.rs / lox_function.rs -/

def LoxClass.name : LoxClass → String
  | .mk n _ _ => n

def LoxClass.methods : LoxClass → List (String × Object)
  | .mk _ ms _ => ms

def LoxClass.superclass : LoxClass → Option LoxClass
  | .mk _ _ sc => sc

/-- Rust `LoxClass::find_method`: own method table first, then the superclass
chain. -/
def LoxClass.findMethod : LoxClass → String → Option Object
  | .mk _ methods none, name => alistLookup methods name
  | .mk _ methods (some superclass), name =>
    match alistLookup methods name with
    | some obj => some obj
    | none => superclass.findMethod name

def LoxInstance.klass : LoxInstance → LoxClass
  | .mk k _ => k

def LoxInstance.fields : LoxInstance → List (String × Object)
  | .mk _ fs => fs

/-- Rust `LoxInstance::get`: the `fields.entry(name)` is occupied exactly when the
field is present; otherwise an undefined-property error.  (No method
lookup happens in this function.) -/
def LoxInstance.get (i : LoxInstance) (name : Token) : Except LoxResult Object :=
  match alistLookup i.fields name.asString with
  | some o => .ok o
  | none =>
    .error (LoxResult.runtimeError name.dup
      ("Undefined property \x27" ++ name.asString ++ "\x27."))

/-- Rust `LoxInstance::set`: always succeeds, creating the field if absent. -/
def LoxInstance.set (i : LoxInstance) (name : Token) (value : Object) : LoxInstance :=
  .mk i.klass (alistInsert i.fields name.asString value)

def LoxFunction.name : LoxFunction → Token
  | .mk n _ _ _ _ => n

def LoxFunction.params : LoxFunction → List Token
  | .mk _ ps _ _ _ => ps

def LoxFunction.body : LoxFunction → List Stmt
  | .mk _ _ b _ _ => b

def LoxFunction.closure : LoxFunction → Nat
  | .mk _ _ _ c _ => c

def LoxFunction.isInitialized : LoxFunction → Bool
  | .mk _ _ _ _ ii => ii

/-- Rust `LoxFunction::bind`: a fresh environment cell enclosing the closure,
defining `this` as the instance; the returned function closes over it. -/
def LoxFunction.bind (f : LoxFunction) (inst : Object) (st : InterpState) :
    Object × InterpState :=
  let environment : Frame := ⟨alistInsert [] "this" inst, some f.closure⟩
  let (idx, st) := allocFrame st environment
  (Object.Func (Callable.LoxFn (LoxFunction.mk f.name f.params f.body idx f.isInitialized)), st)

def Callable.arity : Callable → Nat
  | .LoxFn f => f.params.length
  | .NativeClock => 0

/-! ### interpreter.rs -/

def interpOutOfFuel : LoxResult := LoxResult.systemError "model: interpreter out of fuel"

/-- Rust `Interpreter::is_truthy`. -/
def isTruthy : Object → Bool
  | .Nil => false
  | .Bool false => false
  | _ => true

/-- Approximation of Rust's `{}` formatting for f64 (no claim reads the
printed text). -/
def f64Display : F64 → String
  | .val q => if q.den = 1 then toString q.num else toString q
  | .inf => "inf"
  | .negInf => "-inf"
  | .nan => "NaN"

def loxClassDisplay (k : LoxClass) : String :=
  "<Class " ++ k.name ++ " \x7b " ++ String.intercalate ", " (alistKeys k.methods) ++ " \x7d>"

/-- The `Display for Object` impl; `ArithmeticError` panics in Rust, modelled as
`none`. -/
def objectDisplay : Object → Option String
  | .Num n => some (f64Display n)
  | .Str s => some ("\"" ++ s ++ "\"")
  | .Bool b => some (if b then "true" else "false")
  | .Nil => some "nil"
  | .ArithmeticError => none
  | .Func _ => some "<callable>"
  | .Instance i => some (loxClassDisplay i.klass)

/-- The `(left, right)` match of `visit_binary_expr` (interpreter.rs
114-206), before the `ArithmeticError` post-check.  Rust string ordering is
byte-wise; Lean's is character-wise — they agree on ASCII, and no claim
depends on string ordering. -/
def binaryOpResult (left right : Object) (operator : Token) : Except LoxResult Object :=
  let op := operator.tokenType
  match left, right with
  | .Num left, .Num right =>
    match op with
    | .Plus => .ok (.Num (left.add right))
    | .Minus => .ok (.Num (left.sub right))
    | .Slash => .ok (.Num (left.div right))
    | .Star => .ok (.Num (left.mul right))
    | .Greater => .ok (.Bool (left.gt right))
    | .GreaterEqual => .ok (.Bool (left.ge right))
    | .Less => .ok (.Bool (left.lt right))
    | .LessEqual => .ok (.Bool (left.le right))
    | .Equal => .ok (.Bool (left.beq right))
    | .BangEqual => .ok (.Bool (¬ left.beq right))
    | _ => .error (LoxResult.error operator.line "Unreachable according to num binary expression")
  | .Str left, .Str right =>
    match op with
    | .Plus => .ok (.Str (left ++ right))
    | .Greater => .ok (.Bool (decide (right < left)))
    | .GreaterEqual => .ok (.Bool (decide (right ≤ left)))
    | .Less => .ok (.Bool (decide (left < right)))
    | .LessEqual => .ok (.Bool (decide (left ≤ right)))
    | .Equal => .ok (.Bool (decide (left = right)))
    | .BangEqual => .ok (.Bool (decide (left ≠ right)))
    | _ => .error (LoxResult.error operator.line "Unreachable according to string binary expression")
  | .Str left, .Num right =>
    match op with
    | .Plus => .ok (.Str (left ++ f64Display right))
    | _ => .error (LoxResult.error operator.line "Unreachable according to num and string binary expression")
  | .Num left, .Str right =>
    match op with
    | .Plus => .ok (.Str (f64Display left ++ right))
    | _ => .error (LoxResult.error operator.line "Unreachable according to string and num binary expression")
  | .Nil, .Nil =>
    match op with
    | .Equal => .ok (.Bool true)
    | .BangEqual => .ok (.Bool false)
    | _ => .error (LoxResult.error operator.line "Unreachable according to nil binary expression")
  | .Nil, _ =>
    match op with
    | .Equal => .ok (.Bool false)
    | .BangEqual => .ok (.Bool true)
    | _ => .error (LoxResult.error operator.line "Unreachable according to nil eq other binary expression")
  | .Bool left, .Bool right =>
    match op with
    | .Equal => .ok (.Bool (decide (left = right)))
    | .BangEqual => .ok (.Bool (decide (left ≠ right)))
    | _ => .error (LoxResult.error operator.line "Unreachable according to bool binary expression")
  | _, _ =>
    .error (LoxResult.error operator.line
      "Both operands of the comparison expression must be of the same type")

/-- The tail of `visit_binary_expr`: the `result == Object::ArithmeticError`
post-check converting the sentinel to a runtime error. -/
def binaryOp (left right : Object) (operator : Token) : Except LoxResult Object :=
  match binaryOpResult left right operator with
  | .error e => .error e
  | .ok result =>
    if objectEq result .ArithmeticError then
      .error (LoxResult.runtimeError operator.dup "Illegal expression")
    else .ok result

mutual

def Interpreter.evaluate : Nat → Expr → InterpState → Except LoxResult Object × InterpState
  | 0, _, st => (.error interpOutOfFuel, st)
  | fuel+1, expr, st =>
    match expr with
    | .Assign name value =>
      match Interpreter.evaluate fuel value st with
      | (.error e, st) => (.error e, st)
      | (.ok value, st) =>
        match envAssign st.frames.length st st.environment name value with
        | (.ok _, st) => (.ok value, st)
        | (.error e, st) => (.error e, st)
    | .Binary left operator right =>
      match Interpreter.evaluate fuel left st with
      | (.error e, st) => (.error e, st)
      | (.ok leftV, st) =>
        match Interpreter.evaluate fuel right st with
        | (.error e, st) => (.error e, st)
        | (.ok rightV, st) => (binaryOp leftV rightV operator, st)
    | .Call callee paren arguments =>
      match Interpreter.evaluate fuel callee st with
      | (.error e, st) => (.error e, st)
      | (.ok calleeV, st) =>
        match Interpreter.evaluateArgs fuel arguments st with
        | (.error e, st) => (.error e, st)
        | (.ok args, st) =>
          match calleeV with
          | .Func function =>
            if args.length ≠ function.arity then
              (.error (LoxResult.runtimeError paren.dup
                ("Expect " ++ toString function.arity ++ " arguments but got "
                  ++ toString args.length ++ ".")), st)
            else Interpreter.callCallable fuel function args st
          | _ =>
            (.error (LoxResult.runtimeError paren.dup
              "Can only call functions and classes."), st)
    | .Grouping expression => Interpreter.evaluate fuel expression st
    | .Literal value =>
      match value with
      | some v => (.ok v, st)
      | none => (.error (LoxResult.systemError "panic: unwrap of a None literal"), st)
    | .Logical left operator right =>
      match Interpreter.evaluate fuel left st with
      | (.error e, st) => (.error e, st)
      | (.ok leftV, st) =>
        if operator.is .Or then
          if isTruthy leftV then (.ok leftV, st)
          else Interpreter.evaluate fuel right st
        else
          if ¬ isTruthy leftV then (.ok leftV, st)
          else Interpreter.evaluate fuel right st
    | .Unary operator right =>
      match Interpreter.evaluate fuel right st with
      | (.error e, st) => (.error e, st)
      | (.ok rightV, st) =>
        match operator.tokenType with
        | .Minus =>
          match rightV with
          | .Num n => (.ok (.Num n.neg), st)
          | _ => (.ok .Nil, st)
        | .Bang => (.ok (.Bool (¬ isTruthy rightV)), st)
        | _ =>
          (.error (LoxResult.error operator.line
            "Unreachable according to Unary expression"), st)
    | .Variable name => (envGet st.frames.length st st.environment name, st)
    | .Get _ _ =>
      (.error (LoxResult.systemError
        "Get expressions are not handled by the interpreter snapshot"), st)
    | .Set _ _ _ =>
      (.error (LoxResult.systemError
        "Set expressions are not handled by the interpreter snapshot"), st)
    | .Super _ _ =>
      (.error (LoxResult.systemError
        "Super expressions are not handled by the interpreter snapshot"), st)
    | .This _ =>
      (.error (LoxResult.systemError
        "This expressions are not handled by the interpreter snapshot"), st)

def Interpreter.evaluateArgs : Nat → List Expr → InterpState → Except LoxResult (List Object) × InterpState
  | 0, _, st => (.error interpOutOfFuel, st)
  | _+1, [], st => (.ok [], st)
  | fuel+1, a :: rest, st =>
    match Interpreter.evaluate fuel a st with
    | (.error e, st) => (.error e, st)
    | (.ok v, st) =>
      match Interpreter.evaluateArgs fuel rest st with
      | (.error e, st) => (.error e, st)
      | (.ok vs, st) => (.ok (v :: vs), st)

def Interpreter.callCallable : Nat → Callable → List Object → InterpState → Except LoxResult Object × InterpState
  | 0, _, _, st => (.error interpOutOfFuel, st)
  | _+1, .NativeClock, _, st =>
    -- Returns the wall-clock milliseconds in Rust; time is not modellable,
    -- so the model returns a fixed number (no claim reads it).
    (.ok (Object.Num (F64.val 0)), st)
  | fuel+1, .LoxFn f, arguments, st =>
    let e : Frame :=
      ⟨(f.params.zip arguments).foldl
        (fun acc pa => alistInsert acc pa.1.asString pa.2) [], some f.closure⟩
    match Interpreter.executeBlock fuel f.body e st with
    | (.error (LoxResult.ReturnValue value), st) =>
      if f.isInitialized then (envGetAt 0 st f.closure "this", st)
      else (.ok value, st)
    | (.error e, st) => (.error e, st)
    | (.ok _, st) =>
      if f.isInitialized then (envGetAt 0 st f.closure "this", st)
      else (.ok Object.Nil, st)

def Interpreter.execute : Nat → Stmt → InterpState → Except LoxResult Unit × InterpState
  | 0, _, st => (.error interpOutOfFuel, st)
  | fuel+1, stmt, st =>
    match stmt with
    | .Block statements =>
      Interpreter.executeBlock fuel statements ⟨[], some st.environment⟩ st
    | .Expression expression =>
      match Interpreter.evaluate fuel expression st with
      | (.error e, st) => (.error e, st)
      | (.ok _, st) => (.ok (), st)
    | .Function name params body =>
      -- interpreter.rs constructs `LoxFunction::new(stmt, &env)` (the
      -- pre-initializer constructor); the initializer flag is false.
      let function := LoxFunction.mk name params body st.environment false
      (.ok (), envDefine st st.environment name.asString
        (Object.Func (Callable.LoxFn function)))
    | .Break token =>
      if st.nest = 0 then
        (.error (LoxResult.runtimeError token.dup "break outside of  for/while loop"), st)
      else (.error LoxResult.Break, st)
    | .If condition thenBranch elseBranch =>
      match Interpreter.evaluate fuel condition st with
      | (.error e, st) => (.error e, st)
      | (.ok c, st) =>
        if isTruthy c then Interpreter.execute fuel thenBranch st
        else
          match elseBranch with
          | some elseStmt => Interpreter.execute fuel elseStmt st
          | none => (.ok (), st)
    | .Print expression =>
      match Interpreter.evaluate fuel expression st with
      | (.error e, st) => (.error e, st)
      | (.ok value, st) =>
        match objectDisplay value with
        | some line => (.ok (), { st with output := st.output ++ [line] })
        | none =>
          (.error (LoxResult.systemError
            "panic: Should not be trying to print this object"), st)
    | .Return _ value =>
      match value with
      | some v =>
        match Interpreter.evaluate fuel v st with
        | (.error e, st) => (.error e, st)
        | (.ok o, st) => (.error (LoxResult.returnValue o), st)
      | none => (.error (LoxResult.returnValue Object.Nil), st)
    | .Var name initializer =>
      match
        (match initializer with
         | some init => Interpreter.evaluate fuel init st
         | none => (.ok Object.Nil, st)) with
      | (.error e, st) => (.error e, st)
      | (.ok value, st) =>
        (.ok (), envDefine st st.environment name.asString value)
    | .While condition body =>
      Interpreter.whileLoop fuel condition body { st with nest := st.nest + 1 }
    | .Class _ _ _ =>
      (.error (LoxResult.systemError
        "Class statements are not handled by the interpreter snapshot"), st)

def Interpreter.whileLoop : Nat → Expr → Stmt → InterpState → Except LoxResult Unit × InterpState
  | 0, _, _, st => (.error interpOutOfFuel, st)
  | fuel+1, condition, body, st =>
    match Interpreter.evaluate fuel condition st with
    | (.error e, st) => (.error e, st)
    | (.ok c, st) =>
      if isTruthy c then
        match Interpreter.execute fuel body st with
        | (.error LoxResult.Break, st) => (.ok (), { st with nest := st.nest - 1 })
        | (.error e, st) => (.error e, st)
        | (.ok _, st) => Interpreter.whileLoop fuel condition body st
      else (.ok (), { st with nest := st.nest - 1 })

def Interpreter.executeStmts : Nat → List Stmt → InterpState → Except LoxResult Unit × InterpState
  | 0, _, st => (.error interpOutOfFuel, st)
  | _+1, [], st => (.ok (), st)
  | fuel+1, s :: rest, st =>
    match Interpreter.execute fuel s st with
    | (.error e, st) => (.error e, st)
    | (.ok _, st) => Interpreter.executeStmts fuel rest st

/-- Rust `Interpreter::execute_block`: replace the current-environment cell with
a fresh cell holding `env`, run the statements, and restore the previous
cell whatever the outcome. -/
def Interpreter.executeBlock : Nat → List Stmt → Frame → InterpState → Except LoxResult Unit × InterpState
  | 0, _, _, st => (.error interpOutOfFuel, st)
  | fuel+1, statements, env, st =>
    let previous := st.environment
    let (idx, st) := allocFrame st env
    let st := { st with environment := idx }
    match Interpreter.executeStmts fuel statements st with
    | (result, st) => (result, { st with environment := previous })

end

/-- Rust `Interpreter::new`: globals with the native `clock`, current
environment = globals. -/
def interpreterNew : InterpState :=
  { frames := [⟨alistInsert [] "clock" (Object.Func Callable.NativeClock), none⟩],
    environment := 0, nest := 0, output := [] }

/-! ### Concrete inputs used by the theorems below -/

def tokSemi : Token := Token.mk .SemiColon ";" none 1
def tokSlash : Token := Token.mk .Slash "/" none 1
def tokEq : Token := Token.mk .Equal "==" none 1
def tokNeq : Token := Token.mk .BangEqual "!=" none 1
def tokMinus : Token := Token.mk .Minus "-" none 1
def tokComma : Token := Token.mk .Comma "," none 1
def tokRParen : Token := Token.mk .RightParen ")" none 1
def tokA : Token := Token.mk .Identifier "a" none 1
def tokP : Token := Token.mk .Identifier "p" none 1
def tokM : Token := Token.mk .Identifier "m" none 1
def tokB : Token := Token.mk .Identifier "b" none 1
def tokReturn : Token := Token.mk .Return "return" none 1
def tokBreak : Token := Token.mk .Break "break" none 1
def tokOne : Token := Token.mk .Number "1" (some (Object.Num (F64.val 1))) 1

def litNum (q : ℚ) : Expr := Expr.Literal (some (Object.Num (F64.val q)))

/-- A class with one method `m` and no `init`; an instance of it with no
fields (for the property-lookup theorems). -/
def sampleMethod : Object :=
  Object.Func (Callable.LoxFn (LoxFunction.mk tokM [] [] 0 false))

def sampleClass : LoxClass := LoxClass.mk "A" [("m", sampleMethod)] none

def sampleInstance : LoxInstance := LoxInstance.mk sampleClass []

/-- The program `{ var a = a; }` as parsed. -/
def selfInitProg : List Stmt :=
  [Stmt.Block [Stmt.Var tokA (some (Expr.Variable tokA))]]

/-- A two-frame environment chain: inner `{a}`, outer `{b}`. -/
def sampleChain : Environment :=
  Environment.mk [("a", Object.Nil)] (some (Environment.mk [("b", Object.Nil)] none))

/-- Parser state sitting at `, 1` with 255 arguments already collected. -/
def fullArgs : List Expr := List.replicate 255 (Expr.Literal (some Object.Nil))

def argsBoundaryState : ParserState := ⟨[tokComma, tokOne], 0, false, []⟩

/-- Parser state sitting at `, p` with 255 parameters already collected. -/
def fullParams : List Token := List.replicate 255 tokP

def paramsBoundaryState : ParserState := ⟨[tokComma, tokP], 0, false, []⟩

/-! ## Theorems -/

/-- Claim C1 (code bug): dividing the number 1 by the number 0 through
`visit_binary_expr` evaluates to the NORMAL numeric value `+inf` — no
runtime error is produced — even though the repository's own
`Div for Object` yields the `ArithmeticError` sentinel for a zero divisor
(which `visit_binary_expr` never invokes; its sentinel post-check is dead
code, shown by the third conjunct). -/
theorem c1_division_by_zero_yields_normal_number :
    Interpreter.evaluate 9
        (Expr.Binary (litNum 1) tokSlash (litNum 0)) interpreterNew
      = (.ok (Object.Num F64.inf), interpreterNew)
    ∧ objectDiv (Object.Num (F64.val 1)) (Object.Num (F64.val 0)) = Object.ArithmeticError
    ∧ binaryOp (Object.Num (F64.val 1)) (Object.Num (F64.val 0)) tokSlash
      = .ok (Object.Num F64.inf) :=
  ⟨rfl, rfl, rfl⟩

/-- Claim C3 (code bug): parsing the lone-semicolon token stream reports the
`Expect expression.` syntax error from `primary` (it is in the reported
list), yet `has_error` is still false and `success()` is true, because
`primary`'s fall-through returns a `parse_error` without going through
`Parser::error`. -/
theorem c3_reported_error_with_success_true :
    (Parser.parse 50 (parserNew [tokSemi, Token.eof 1])).2.reported
      = [LoxResult.ParseError tokSemi "Expect expression."]
    ∧ (Parser.parse 50 (parserNew [tokSemi, Token.eof 1])).2.hasError = false
    ∧ Parser.success (Parser.parse 50 (parserNew [tokSemi, Token.eof 1])).2 = true
    ∧ (Parser.parse 50 (parserNew [tokSemi, Token.eof 1])).1 = .ok [] :=
  ⟨rfl, rfl, rfl, rfl⟩

/-- Claim C5 (code bug): scanning each two-character operator source text
produces a combined-kind token whose lexeme is only the FIRST character,
followed by a spurious `Assign` token for the `=` — `is_match` tests the
next character but never consumes it, so maximal munch fails. -/
theorem c5_two_char_operators_not_munched :
    runScan "!=" = ([Token.mk .BangEqual "!" none 1, Token.mk .Assign "=" none 1,
                     Token.eof 1], none)
    ∧ runScan "==" = ([Token.mk .Equal "=" none 1, Token.mk .Assign "=" none 1,
                       Token.eof 1], none)
    ∧ runScan "<=" = ([Token.mk .LessEqual "<" none 1, Token.mk .Assign "=" none 1,
                       Token.eof 1], none)
    ∧ runScan ">=" = ([Token.mk .GreaterEqual ">" none 1, Token.mk .Assign "=" none 1,
                       Token.eof 1], none) :=
  ⟨rfl, rfl, rfl, rfl⟩

/-- Claim C2, counterexample: `sampleInstance`'s class defines method `m`
(`find_method` finds it) and the instance has no field `m`, yet
`LoxInstance::get` returns the undefined-property error instead of the
bound method the claim promises. -/
theorem c2_counterexample :
    LoxClass.findMethod sampleClass "m" = some sampleMethod
    ∧ alistLookup (LoxInstance.fields sampleInstance) "m" = none
    ∧ LoxInstance.get sampleInstance tokM
      = .error (LoxResult.RuntimeError tokM "Undefined property \x27m\x27.") :=
  ⟨rfl, rfl, rfl⟩

/-- Claim C2, amended: `get` is a pure field lookup — the present field's
value when there is one, the undefined-property error otherwise — and its
result does not depend on the instance's class at all (hence never on
`find_method` or `bind`). -/
theorem c2_get_is_field_lookup_only :
    ∀ (i : LoxInstance) (name : Token),
      (LoxInstance.get i name =
        match alistLookup i.fields name.asString with
        | some v => .ok v
        | none => .error (LoxResult.RuntimeError name
            ("Undefined property \x27" ++ name.asString ++ "\x27.")))
      ∧ ∀ k2 : LoxClass,
          LoxInstance.get (LoxInstance.mk k2 i.fields) name = LoxInstance.get i name := by
  intro i name
  constructor
  · rfl
  · intro k2
    cases i with
    | mk k fields => rfl

/-- Claim C4, counterexample: resolving `{ var a = a; }` ABORTS the
resolver with a returned runtime error — the rest of the tree is not
analyzed — and afterwards `has_error` is still false (`success()` is
true); nothing was put through the resolver's reporting path. -/
theorem c4_counterexample :
    (Resolver.resolveStmts 9 selfInitProg resolverNew).1
      = .error (LoxResult.RuntimeError tokA
          "Can`t read local variable in its own initializer.")
    ∧ (Resolver.resolveStmts 9 selfInitProg resolverNew).2.hasError = false
    ∧ Resolver.success (Resolver.resolveStmts 9 selfInitProg resolverNew).2 = true
    ∧ (Resolver.resolveStmts 9 selfInitProg resolverNew).2.reported = [] :=
  ⟨rfl, rfl, rfl, rfl⟩

/-- Claim C4, amended: `return` at top level and `break` outside a loop are
reported through the resolver's error path — setting the error flag — and
resolution continues (`Ok`); but reading a local variable in its own
initializer instead returns an error that aborts resolution, leaving the
resolver's state (and so its success flag) untouched. -/
theorem c4_amended_violation_behaviour :
    (∀ (fuel : Nat) (k : Token) (rs : ResolverState),
      rs.currentFunType = .None →
      Resolver.resolveStmt (fuel+1) (Stmt.Return k none) rs
        = (.ok (), Resolver.error rs k.dup "Can\x27t return from top-level code."))
    ∧ (∀ (fuel : Nat) (t : Token) (rs : ResolverState),
      rs.inWhile = false →
      Resolver.resolveStmt (fuel+1) (Stmt.Break t) rs
        = (.ok (), Resolver.error rs t.dup
            "Break statement outside of a for/while loop"))
    ∧ (∀ (fuel : Nat) (name : Token) (rs : ResolverState),
      rs.scopes ≠ [] →
      alistLookup (rs.scopes.headD []) name.asString = some false →
      Resolver.resolveExpr (fuel+1) (Expr.Variable name) rs
        = (.error (LoxResult.RuntimeError name
            "Can`t read local variable in its own initializer."), rs)) := by
  refine ⟨?_, ?_, ?_⟩
  · intro fuel k rs h
    simp [Resolver.resolveStmt, h]
  · intro fuel t rs h
    simp [Resolver.resolveStmt, h]
  · intro fuel name rs h1 h2
    rcases hs : rs.scopes with _ | ⟨scope, rest⟩
    · exact absurd hs h1
    · rw [hs] at h2
      simp at h2
      simp [Resolver.resolveExpr, hs, h2, LoxResult.runtimeError, Token.dup]

/-- Witness for `c4_amended_violation_behaviour` at concrete inputs. -/
theorem c4_amended_violation_behaviour_witness :
    Resolver.resolveStmt 1 (Stmt.Return tokReturn none) resolverNew
      = (.ok (), Resolver.error resolverNew tokReturn.dup
          "Can\x27t return from top-level code.")
    ∧ Resolver.resolveStmt 1 (Stmt.Break tokBreak) resolverNew
      = (.ok (), Resolver.error resolverNew tokBreak.dup
          "Break statement outside of a for/while loop")
    ∧ Resolver.resolveExpr 1 (Expr.Variable tokA)
        { resolverNew with scopes := [[("a", false)]] }
      = (.error (LoxResult.RuntimeError tokA
          "Can`t read local variable in its own initializer."),
         { resolverNew with scopes := [[("a", false)]] }) :=
  ⟨c4_amended_violation_behaviour.1 0 tokReturn resolverNew rfl,
   c4_amended_violation_behaviour.2.1 0 tokBreak resolverNew rfl,
   c4_amended_violation_behaviour.2.2 0 tokA
     { resolverNew with scopes := [[("a", false)]] } (by simp [resolverNew]) rfl⟩

/-- Claim C9, counterexample: evaluating `true == nil` (nil as the RIGHT
operand) is a reported error, not `false` — the match in
`visit_binary_expr` has a `(Nil, _)` arm but no `(_, Nil)` arm, so the pair
falls to the same-type-required catch-all. -/
theorem c9_counterexample :
    Interpreter.evaluate 9
        (Expr.Binary (Expr.Literal (some (Object.Bool true))) tokEq
          (Expr.Literal (some Object.Nil)))
        interpreterNew
      = (.error (LoxResult.Error 1
          "Both operands of the comparison expression must be of the same type"),
         interpreterNew) :=
  rfl

/-- Claim C9, amended: with nil as the LEFT operand, `nil == v` is `false`
and `nil != v` is `true` for every non-nil `v`, without error; with nil as
the RIGHT operand and a non-nil left operand, both comparisons are the
same-type-required error — operand order matters. -/
theorem c9_nil_equality_order_dependent :
    ∀ (v : Object) (eqT neqT : Token),
      v ≠ Object.Nil →
      eqT.ttype = .Equal →
      neqT.ttype = .BangEqual →
      binaryOp Object.Nil v eqT = .ok (Object.Bool false)
      ∧ binaryOp Object.Nil v neqT = .ok (Object.Bool true)
      ∧ binaryOp v Object.Nil eqT
        = .error (LoxResult.Error eqT.line
            "Both operands of the comparison expression must be of the same type")
      ∧ binaryOp v Object.Nil neqT
        = .error (LoxResult.Error neqT.line
            "Both operands of the comparison expression must be of the same type") := by
  intro v eqT neqT hv he hn
  cases v <;>
    first
      | exact absurd rfl hv
      | exact
          ⟨by simp [binaryOp, binaryOpResult, Token.tokenType, he, objectEq, LoxResult.error],
           by simp [binaryOp, binaryOpResult, Token.tokenType, hn, objectEq, LoxResult.error],
           by simp [binaryOp, binaryOpResult, Token.tokenType, he, objectEq, LoxResult.error],
           by simp [binaryOp, binaryOpResult, Token.tokenType, hn, objectEq, LoxResult.error]⟩

/-- Witness for `c9_nil_equality_order_dependent` at `v = true`. -/
theorem c9_nil_equality_order_dependent_witness :
    binaryOp Object.Nil (Object.Bool true) tokEq = .ok (Object.Bool false)
    ∧ binaryOp Object.Nil (Object.Bool true) tokNeq = .ok (Object.Bool true)
    ∧ binaryOp (Object.Bool true) Object.Nil tokEq
      = .error (LoxResult.Error tokEq.line
          "Both operands of the comparison expression must be of the same type")
    ∧ binaryOp (Object.Bool true) Object.Nil tokNeq
      = .error (LoxResult.Error tokNeq.line
          "Both operands of the comparison expression must be of the same type") :=
  c9_nil_equality_order_dependent (Object.Bool true) tokEq tokNeq
    (fun h => Object.noConfusion h) rfl rfl

/-- If `check` succeeds the parser is not at the end. -/
theorem Parser.check_isAtEnd_false {ps : ParserState} {t : TokenType}
    (h : Parser.check ps t = true) : Parser.isAtEnd ps = false := by
  unfold Parser.check at h
  by_cases he : Parser.isAtEnd ps
  · simp [he] at h
  · simp [he]

/-- Claim C6, counterexample: with 255 arguments already parsed and the
input continuing `, 1`, the argument loop of `finish_call` returns a parse
error — the call-expression parse is ABORTED, no call expression is
produced — contradicting "does not abort parsing: the parser still
consumes the rest of the list and returns the parsed ... call
expression". -/
theorem c6_counterexample :
    Parser.argsLoop 2 fullArgs argsBoundaryState
      = (.error (LoxResult.ParseError tokOne "Can`t have more than 255 arguments."),
         ⟨[tokComma, tokOne], 1, true, []⟩) :=
  rfl

/-- Claim C6, amended: once 255 call arguments have been collected, the
next comma makes `finish_call`'s loop return a parse error (aborting the
call expression; the parser will synchronize and continue with later
statements); once 255 parameters have been collected, `function` only sets
the error flag — reporting nothing, and only when no earlier error was
flagged — and goes on consuming the parameter list. -/
theorem c6_param_flag_vs_argument_abort :
    (∀ (fuel : Nat) (arguments : List Expr) (ps : ParserState),
      255 ≤ arguments.length →
      Parser.check ps .Comma = true →
      Parser.argsLoop (fuel+1) arguments ps
        = (.error (LoxResult.ParseError ((Parser.peek (Parser.advance ps).2).dup)
            "Can`t have more than 255 arguments."),
           { (Parser.advance ps).2 with hasError := true }))
    ∧ (∀ (fuel : Nat) (params : List Token) (ps : ParserState),
      255 ≤ params.length →
      ps.hasError = false →
      Parser.check ps .Comma = true →
      Parser.check (Parser.advance ps).2 .Identifier = true →
      Parser.paramsLoop (fuel+1) params ps
        = Parser.paramsLoop fuel (params ++ [(Parser.peek (Parser.advance ps).2).dup])
            { (Parser.advance (Parser.advance ps).2).2 with hasError := true }) := by
  constructor
  · intro fuel arguments ps hlen hc
    simp [Parser.argsLoop, Parser.isMatch, hc, hlen, Parser.error, LoxResult.parseError]
  · intro fuel params ps hlen herr hc hid
    have hend := Parser.check_isAtEnd_false hc
    cases ps with
    | mk toks cur hasErr rep =>
      dsimp only at herr
      subst herr
      simp only [Parser.advance, hend] at hid
      simp at hid
      have hid1 : Parser.check ⟨toks, cur + 1, false, rep⟩ .Identifier = true := hid
      have hid2 : Parser.check ⟨toks, cur + 1, true, rep⟩ .Identifier = true := hid1
      have hend1 := Parser.check_isAtEnd_false hid1
      have hend2 := Parser.check_isAtEnd_false hid2
      simp [Parser.paramsLoop, Parser.isMatch, hc, hlen, Parser.error,
        Parser.consume, Parser.advance, Parser.peek, Parser.previous,
        hend, hend1, hend2, hid1, hid2]

/-- Witness for `c6_param_flag_vs_argument_abort` at the boundary states. -/
theorem c6_param_flag_vs_argument_abort_witness :
    Parser.argsLoop 1 fullArgs argsBoundaryState
      = (.error (LoxResult.ParseError
            ((Parser.peek (Parser.advance argsBoundaryState).2).dup)
            "Can`t have more than 255 arguments."),
         { (Parser.advance argsBoundaryState).2 with hasError := true })
    ∧ Parser.paramsLoop 1 fullParams paramsBoundaryState
      = Parser.paramsLoop 0
          (fullParams ++ [(Parser.peek (Parser.advance paramsBoundaryState).2).dup])
          { (Parser.advance (Parser.advance paramsBoundaryState).2).2 with hasError := true } :=
  ⟨c6_param_flag_vs_argument_abort.1 0 fullArgs argsBoundaryState
     (by simp [fullArgs]) rfl,
   c6_param_flag_vs_argument_abort.2 0 fullParams paramsBoundaryState
     (by simp [fullParams]) rfl rfl rfl⟩

/-- Unconditionally, `execute_block` leaves the current-environment index untouched,
whatever the statements do and however they end. -/
theorem executeBlock_environment_eq (fuel : Nat) (statements : List Stmt)
    (env : Frame) (st : InterpState) :
    ((Interpreter.executeBlock fuel statements env st).2).environment = st.environment := by
  cases fuel with
  | zero => rfl
  | succ n =>
    simp only [Interpreter.executeBlock]


/-- Claim C7: on every exit path — normal completion, runtime error, Break,
Return (any result whatever) — `execute_block` restores the interpreter's
current environment to what it was before the call; the same holds for
`visit_block_stmt`. -/
theorem c7_execute_block_restores_environment :
    ∀ (fuel : Nat) (statements : List Stmt) (env : Frame) (st : InterpState),
      ((Interpreter.executeBlock fuel statements env st).2).environment = st.environment
      ∧ ((Interpreter.execute fuel (Stmt.Block statements) st).2).environment
          = st.environment := by
  intro fuel statements env st
  refine ⟨executeBlock_environment_eq fuel statements env st, ?_⟩
  cases fuel with
  | zero => rfl
  | succ n =>
    simpa only [Interpreter.execute] using
      executeBlock_environment_eq n statements ⟨[], some st.environment⟩ st

/-- Claim C10: a unary `-` whose operand evaluates to a string, a bool or
nil succeeds with `nil` instead of raising a type error. -/
theorem c10_unary_minus_non_number_yields_nil :
    ∀ (fuel : Nat) (op : Token) (v : Object) (st : InterpState),
      op.ttype = .Minus →
      ((∃ s, v = Object.Str s) ∨ (∃ b, v = Object.Bool b) ∨ v = Object.Nil) →
      Interpreter.evaluate (fuel+2) (Expr.Unary op (Expr.Literal (some v))) st
        = (.ok Object.Nil, st) := by
  intro fuel op v st hop hv
  rcases hv with ⟨s, rfl⟩ | ⟨b, rfl⟩ | rfl <;>
    simp [Interpreter.evaluate, Token.tokenType, hop]

/-- Witness for `c10_unary_minus_non_number_yields_nil` at a string. -/
theorem c10_unary_minus_non_number_yields_nil_witness :
    Interpreter.evaluate 2
        (Expr.Unary tokMinus (Expr.Literal (some (Object.Str "s")))) interpreterNew
      = (.ok Object.Nil, interpreterNew) :=
  c10_unary_minus_non_number_yields_nil 0 tokMinus (Object.Str "s") interpreterNew rfl
    (Or.inl ⟨"s", rfl⟩)

/-- Replacing the value of a present key leaves the key list unchanged. -/
theorem alistKeys_insert_of_contains {α : Type} :
    ∀ (l : List (String × α)) (k : String) (v : α),
      alistContains l k = true → alistKeys (alistInsert l k v) = alistKeys l := by
  intro l k v h
  induction l with
  | nil => simp [alistContains, alistLookup] at h
  | cons hd tl ih =>
    obtain ⟨k0, v0⟩ := hd
    by_cases hk : k0 = k
    · simp [alistInsert, hk, alistKeys]
    · simp [alistContains, alistLookup, hk] at h
      simp [alistInsert, hk, alistKeys]
      exact ih h

/-- Claim C8: `assign` updates the nearest enclosing frame that already
defines the name — every frame keeps exactly its set of defined names
(so no binding is ever created), only the nearest defining frame changes,
and only at that name — succeeds exactly when some frame defines the name,
and otherwise returns the undefined-variable runtime error. -/
theorem c8_assign_updates_nearest_frame_only :
    ∀ (e : Environment) (name : Token) (v : Object),
      (∀ e2, Environment.assign e name v = .ok e2 →
        e2.domains = e.domains ∧
        ∃ d, e.depthOf name.asString = some d ∧
          e2.frames = e.frames.set d
            (alistInsert (e.frames.getD d []) name.asString v))
      ∧ (e.depthOf name.asString = none →
          Environment.assign e name v
            = .error (LoxResult.RuntimeError name (undefinedVariableMsg name)))
      ∧ (∀ d, e.depthOf name.asString = some d →
          ∃ e2, Environment.assign e name v = .ok e2)
  | .mk vars none, name, v => by
    by_cases hc : alistContains vars name.asString = true
    · refine ⟨?_, ?_, ?_⟩
      · intro e2 he2
        simp [Environment.assign, hc] at he2
        subst he2
        refine ⟨?_, 0, ?_, ?_⟩
        · simp [Environment.domains, Environment.frames,
            alistKeys_insert_of_contains vars name.asString v hc]
        · simp [Environment.depthOf, hc]
        · simp [Environment.frames]
      · intro hd
        simp [Environment.depthOf, hc] at hd
      · intro d _
        exact ⟨.mk (alistInsert vars name.asString v) none,
          by simp [Environment.assign, hc]⟩
    · refine ⟨?_, ?_, ?_⟩
      · intro e2 he2
        simp [Environment.assign, hc] at he2
      · intro _
        simp [Environment.assign, hc, LoxResult.runtimeError, Token.dup]
      · intro d hd
        simp [Environment.depthOf, hc] at hd
  | .mk vars (some parent), name, v => by
    have ih := c8_assign_updates_nearest_frame_only parent name v
    by_cases hc : alistContains vars name.asString = true
    · refine ⟨?_, ?_, ?_⟩
      · intro e2 he2
        simp [Environment.assign, hc] at he2
        subst he2
        refine ⟨?_, 0, ?_, ?_⟩
        · simp [Environment.domains, Environment.frames,
            alistKeys_insert_of_contains vars name.asString v hc]
        · simp [Environment.depthOf, hc]
        · simp [Environment.frames]
      · intro hd
        simp [Environment.depthOf, hc] at hd
      · intro d _
        exact ⟨.mk (alistInsert vars name.asString v) (some parent),
          by simp [Environment.assign, hc]⟩
    · refine ⟨?_, ?_, ?_⟩
      · intro e2 he2
        simp only [Environment.assign, hc] at he2
        cases hpa : Environment.assign parent name v with
        | ok p2 =>
          rw [hpa] at he2
          simp at he2
          subst he2
          obtain ⟨hdom, d, hd, hframes⟩ := ih.1 p2 hpa
          refine ⟨?_, d + 1, ?_, ?_⟩
          · simp [Environment.domains, Environment.frames] at hdom ⊢
            exact hdom
          · simp [Environment.depthOf, hc, hd]
          · simp [Environment.frames, hframes]
        | error er =>
          rw [hpa] at he2
          simp at he2
      · intro hd
        rw [Environment.depthOf, if_neg (by simpa using hc), Option.map_eq_none'] at hd
        have := ih.2.1 hd
        simp [Environment.assign, hc, this]
      · intro d hd
        rw [Environment.depthOf, if_neg (by simpa using hc), Option.map_eq_some'] at hd
        obtain ⟨d0, hd0, _⟩ := hd
        obtain ⟨p2, hp2⟩ := ih.2.2 d0 hd0
        exact ⟨.mk vars (some p2), by simp [Environment.assign, hc, hp2]⟩

/-- Witness for `c8_assign_updates_nearest_frame_only`: assigning `b` in a
two-frame chain (inner `{a}`, outer `{b}`) updates the outer frame in
place; assigning in an empty environment is the undefined-variable
error. -/
theorem c8_assign_updates_nearest_frame_only_witness :
    ((Environment.mk [("a", Object.Nil)]
        (some (Environment.mk [("b", Object.Bool true)] none))).domains
      = sampleChain.domains
    ∧ ∃ d, sampleChain.depthOf tokB.asString = some d ∧
        (Environment.mk [("a", Object.Nil)]
          (some (Environment.mk [("b", Object.Bool true)] none))).frames
        = sampleChain.frames.set d
            (alistInsert (sampleChain.frames.getD d []) tokB.asString (Object.Bool true)))
    ∧ Environment.assign (Environment.mk [] none) tokB (Object.Bool true)
      = .error (LoxResult.RuntimeError tokB (undefinedVariableMsg tokB)) :=
  ⟨(c8_assign_updates_nearest_frame_only sampleChain tokB (Object.Bool true)).1
     (Environment.mk [("a", Object.Nil)]
       (some (Environment.mk [("b", Object.Bool true)] none))) rfl,
   (c8_assign_updates_nearest_frame_only (Environment.mk [] none) tokB
     (Object.Bool true)).2.1 rfl⟩
